import Mathlib

/-!
Verification development for the VERIFY content-authenticity server
(three Express-style variants: `src/server.ts` (dev), `src/unnamed/part_000`
(production), `src/unnamed/part_001` (serverless)).  The JSON values the
handlers pass around are modelled by a small mutually inductive type; the
JavaScript builtins `JSON.parse` / `JSON.stringify` are modelled on the
integer fragment (no floating point); the handlers themselves are
transcribed as pure state-passing functions over an explicit database
state.
-/

set_option maxHeartbeats 1000000

namespace Verify

mutual

/-- JSON values as produced and consumed by the server.  Numbers are
modelled as integers (the program only ever produces integral
probabilities; the floating-point fragment of JavaScript numbers is out of
scope).  `nan` models the JavaScript `NaN` value, which can arise from the
`100 - result.aiProbability` coercion when the field is not a number. -/
inductive Json where
  | null : Json
  | bool : Bool → Json
  | num : Int → Json
  | str : String → Json
  | nan : Json
  | arr : JsonList → Json
  | obj : Members → Json

/-- Lists of JSON values (elements of a JSON array). -/
inductive JsonList where
  | nil : JsonList
  | cons : Json → JsonList → JsonList

/-- Ordered key/value members of a JSON object. -/
inductive Members where
  | nil : Members
  | cons : String → Json → Members → Members

end

deriving instance DecidableEq for Json
deriving instance DecidableEq for JsonList
deriving instance DecidableEq for Members

/-- The left-brace character (written via its code point). -/
def lbr : Char := Char.ofNat 123

/-- The right-brace character (written via its code point). -/
def rbr : Char := Char.ofNat 125

/-- The backtick character (written via its code point). -/
def btk : Char := Char.ofNat 96

/-- Whitespace as matched by the JavaScript `\s` class and `String.trim`,
restricted to the ASCII range (space, tab, newline, vertical tab, form
feed, carriage return). -/
def isWs (c : Char) : Bool :=
  c = ' ' || c = '\t' || c = '\n' || c = Char.ofNat 11 || c = Char.ofNat 12 || c = '\r'

/-- Drop leading whitespace from a character list. -/
def dropWs (l : List Char) : List Char := l.dropWhile isWs

/-- JavaScript `String.prototype.trim`: drop whitespace from both ends. -/
def trimChars (l : List Char) : List Char :=
  ((l.dropWhile isWs).reverse.dropWhile isWs).reverse

/-- Field lookup on a JSON object member list (JavaScript property read:
`undefined`, i.e. `none`, when the key is absent; first occurrence wins,
as in a JavaScript object no key occurs twice). -/
def getMem : Members → String → Option Json
  | .nil, _ => none
  | .cons k v rest, key => if k = key then some v else getMem rest key

/-- Property read `o.key` on an arbitrary JSON value: `none` models
JavaScript's `undefined` (reads on non-objects used by the code only ever
happen on objects, so the non-object case returns `none`). -/
def getField (j : Json) (key : String) : Option Json :=
  match j with
  | .obj ms => getMem ms key
  | _ => none

/-- Property write on a member list (JavaScript `o.key = v`): overwrite
the first occurrence in place, or append the key at the end. -/
def setMem : Members → String → Json → Members
  | .nil, key, v => .cons key v .nil
  | .cons k w rest, key, v =>
    if k = key then .cons k v rest else .cons k w (setMem rest key v)

/-- Property write `o.key = v` on an object value (the code only ever
assigns onto objects; on non-objects the value is returned unchanged). -/
def setField (j : Json) (key : String) (v : Json) : Json :=
  match j with
  | .obj ms => .obj (setMem ms key v)
  | other => other

/-- Decimal digit characters of a natural number, accumulator form;
fuel-indexed so that the definition is structurally recursive (any fuel
at least the number itself suffices). -/
def natCharsAux : Nat → Nat → List Char → List Char
  | 0, _, acc => acc
  | fuel + 1, n, acc =>
    if n = 0 then acc else natCharsAux fuel (n / 10) (Char.ofNat (48 + n % 10) :: acc)

/-- Decimal digit characters of a natural number (`"0"` for zero). -/
def natChars (n : Nat) : List Char :=
  if n = 0 then ['0'] else natCharsAux n n []

/-- Decimal rendering of an integer. -/
def intChars (n : Int) : List Char :=
  if n < 0 then '-' :: natChars n.natAbs else natChars n.toNat

/-- String-body escaping of `JSON.stringify`: escape the quote and the
backslash.  (Control characters, which `JSON.stringify` renders as `\u`
escapes, are emitted raw in this model; the parser below accepts them raw,
so serialization stays invertible inside the model.)  The closing quote is
appended at the end. -/
def escChars : List Char → List Char
  | [] => ['"']
  | c :: cs =>
    if c = '"' then '\\' :: '"' :: escChars cs
    else if c = '\\' then '\\' :: '\\' :: escChars cs
    else c :: escChars cs

mutual

/-- Model of `JSON.stringify` on the integer fragment: serialize a JSON
value to its character sequence (no added whitespace, as in JavaScript
without an indent argument).  `nan` serializes as `null`, exactly as
JavaScript's `JSON.stringify(NaN)` does. -/
def serialize : Json → List Char
  | .null => 'n' :: 'u' :: 'l' :: 'l' :: []
  | .bool true => 't' :: 'r' :: 'u' :: 'e' :: []
  | .bool false => 'f' :: 'a' :: 'l' :: 's' :: 'e' :: []
  | .num n => intChars n
  | .str s => '"' :: escChars s.data
  | .nan => 'n' :: 'u' :: 'l' :: 'l' :: []
  | .arr xs => '[' :: serializeItems xs
  | .obj ms => lbr :: serializeMems ms

/-- Serialize array elements, comma-separated, with the closing bracket. -/
def serializeItems : JsonList → List Char
  | .nil => [']']
  | .cons x .nil => serialize x ++ [']']
  | .cons x (.cons y tl) => serialize x ++ ',' :: serializeItems (.cons y tl)

/-- Serialize object members, comma-separated, with the closing brace. -/
def serializeMems : Members → List Char
  | .nil => [rbr]
  | .cons k v .nil => '"' :: escChars k.data ++ ':' :: serialize v ++ [rbr]
  | .cons k v (.cons k2 w tl) =>
    '"' :: escChars k.data ++ ':' :: serialize v ++ ',' :: serializeMems (.cons k2 w tl)

end

/-- Serialization as a `String` (the form stored in the database and sent
over HTTP). -/
def serializeStr (j : Json) : String := String.mk (serialize j)

/-- Unescape one character after a backslash inside a JSON string literal
(`\u` escapes are outside the modelled fragment). -/
def unescape (c : Char) : Option Char :=
  if c = '"' then some '"'
  else if c = '\\' then some '\\'
  else if c = '/' then some '/'
  else if c = 'n' then some '\n'
  else if c = 't' then some '\t'
  else if c = 'r' then some '\r'
  else if c = 'b' then some (Char.ofNat 8)
  else if c = 'f' then some (Char.ofNat 12)
  else none

/-- Parse the body of a JSON string literal (after the opening quote),
returning the decoded characters and the remaining input. -/
def parseStrBody : List Char → Option (List Char × List Char)
  | [] => none
  | c :: cs =>
    if c = '"' then some ([], cs)
    else if c = '\\' then
      match cs with
      | [] => none
      | e :: cs2 =>
        match unescape e with
        | none => none
        | some ch => (parseStrBody cs2).map (fun p => (ch :: p.1, p.2))
    else (parseStrBody cs).map (fun p => (c :: p.1, p.2))

/-- Decimal digit test (code points 48–57). -/
def isDig (c : Char) : Bool := 48 ≤ c.toNat && c.toNat ≤ 57

/-- Numeric value of a list of decimal digit characters. -/
def digitsToNat (l : List Char) : Nat :=
  l.foldl (fun a c => 10 * a + (c.toNat - 48)) 0

/-- Parse a JSON integer literal (optional minus sign, then digits;
fractions and exponents are outside the modelled fragment). -/
def parseNum (cs : List Char) : Option (Json × List Char) :=
  match cs with
  | [] => none
  | c :: rest =>
    if c = '-' then
      let ds := rest.takeWhile isDig
      if ds = [] then none
      else some (.num (-(digitsToNat ds : Int)), rest.dropWhile isDig)
    else
      let ds := cs.takeWhile isDig
      if ds = [] then none
      else some (.num (digitsToNat ds : Int), cs.dropWhile isDig)

mutual

/-- Model of the recognising core of `JSON.parse`, fuel-indexed: parse one
JSON value from the input (skipping leading whitespace) and return it with
the unconsumed remainder. -/
def parseValue : Nat → List Char → Option (Json × List Char)
  | 0, _ => none
  | fuel + 1, input =>
    match dropWs input with
    | [] => none
    | c :: rest =>
      if c = lbr then
        match dropWs rest with
        | c2 :: rest2 =>
          if c2 = rbr then some (.obj .nil, rest2)
          else (parseMems fuel (c2 :: rest2)).map (fun p => (.obj p.1, p.2))
        | [] => none
      else if c = '[' then
        match dropWs rest with
        | c2 :: rest2 =>
          if c2 = ']' then some (.arr .nil, rest2)
          else (parseElems fuel (c2 :: rest2)).map (fun p => (.arr p.1, p.2))
        | [] => none
      else if c = '"' then
        (parseStrBody rest).map (fun p => (.str (String.mk p.1), p.2))
      else if c = 'n' then
        match rest with
        | 'u' :: 'l' :: 'l' :: r => some (.null, r)
        | _ => none
      else if c = 't' then
        match rest with
        | 'r' :: 'u' :: 'e' :: r => some (.bool true, r)
        | _ => none
      else if c = 'f' then
        match rest with
        | 'a' :: 'l' :: 's' :: 'e' :: r => some (.bool false, r)
        | _ => none
      else if c = '-' || isDig c then parseNum (c :: rest)
      else none

/-- Parse one or more comma-separated array elements up to the closing
bracket. -/
def parseElems : Nat → List Char → Option (JsonList × List Char)
  | 0, _ => none
  | fuel + 1, input =>
    (parseValue fuel input).bind fun p =>
      match dropWs p.2 with
      | c :: rest =>
        if c = ',' then
          (parseElems fuel rest).map (fun q => (.cons p.1 q.1, q.2))
        else if c = ']' then some (.cons p.1 .nil, rest)
        else none
      | [] => none

/-- Parse one or more comma-separated object members up to the closing
brace. -/
def parseMems : Nat → List Char → Option (Members × List Char)
  | 0, _ => none
  | fuel + 1, input =>
    match dropWs input with
    | c :: rest =>
      if c = '"' then
        (parseStrBody rest).bind fun kp =>
          match dropWs kp.2 with
          | c2 :: rest2 =>
            if c2 = ':' then
              (parseValue fuel rest2).bind fun vp =>
                match dropWs vp.2 with
                | c3 :: rest3 =>
                  if c3 = ',' then
                    (parseMems fuel rest3).map
                      (fun q => (.cons (String.mk kp.1) vp.1 q.1, q.2))
                  else if c3 = rbr then
                    some (.cons (String.mk kp.1) vp.1 .nil, rest3)
                  else none
                | [] => none
            else none
          | [] => none
      else none
    | [] => none

end

/-- Model of `JSON.parse` on the integer fragment: parse a complete JSON
document (`none` models the `SyntaxError` throw).  Trailing input other
than whitespace is rejected, as in JavaScript. -/
def jsonParse (cs : List Char) : Option Json :=
  match parseValue (cs.length + 1) cs with
  | some (v, rest) => if dropWs rest = [] then some v else none
  | none => none

/-- `JSON.parse` on a `String`. -/
def jsonParseStr (s : String) : Option Json := jsonParse s.data

/-- Does the input start with a triple-backtick (a match of `/```\s*/` at
this position)? -/
def isTriple : List Char → Bool
  | a :: b :: c :: _ => a = btk && b = btk && c = btk
  | _ => false

/-- Do the four characters after the backticks spell `json`
case-insensitively? -/
def matchesJsonAfter : List Char → Bool
  | d :: e :: f :: g :: _ =>
    d.toLower = 'j' && e.toLower = 's' && f.toLower = 'o' && g.toLower = 'n'
  | _ => false

/-- Does the input start with a triple-backtick followed by `json`
(case-insensitively), i.e. a match of the regex `/```json\s*/i` at this
position (the `\s*` part is consumed separately)? -/
def isFenceJson (l : List Char) : Bool := isTriple l && matchesJsonAfter (l.drop 3)

/-- Does a `/```json\s*/i` match start anywhere in the input? -/
def hasFenceJson : List Char → Bool
  | [] => false
  | c :: cs => isFenceJson (c :: cs) || hasFenceJson cs

/-- Does a triple-backtick occur anywhere in the input? -/
def hasTriple : List Char → Bool
  | [] => false
  | c :: cs => isTriple (c :: cs) || hasTriple cs

/-- Length of a `dropWhile` result never exceeds the input length. -/
theorem dropWs_length_le (l : List Char) : (dropWs l).length ≤ l.length := by
  induction l with
  | nil => simp [dropWs]
  | cons c cs ih =>
    by_cases h : isWs c
    · simpa [dropWs, List.dropWhile, h] using Nat.le_trans ih (by omega)
    · simp [dropWs, List.dropWhile, h]

/-- Fuel-indexed scan for `text.replace(/```json\s*/gi, "")`: a
left-to-right scan that deletes each match (the fence plus any following
whitespace, greedily) and copies every other character.  Each step
consumes at least one character, so fuel at least the input length makes
the zero-fuel case unreachable. -/
def stripJsonFencesF : Nat → List Char → List Char
  | 0, l => l
  | _ + 1, [] => []
  | fuel + 1, c :: cs =>
    if isFenceJson (c :: cs) then stripJsonFencesF fuel (dropWs ((c :: cs).drop 7))
    else c :: stripJsonFencesF fuel cs

/-- Model of `text.replace(/```json\s*/gi, "")`. -/
def stripJsonFences (l : List Char) : List Char := stripJsonFencesF l.length l

/-- Fuel-indexed scan for `t.replace(/```\s*/g, "")`: delete each bare
triple-backtick fence plus following whitespace. -/
def stripFencesF : Nat → List Char → List Char
  | 0, l => l
  | _ + 1, [] => []
  | fuel + 1, c :: cs =>
    if isTriple (c :: cs) then stripFencesF fuel (dropWs ((c :: cs).drop 3))
    else c :: stripFencesF fuel cs

/-- Model of `t.replace(/```\s*/g, "")`. -/
def stripFences (l : List Char) : List Char := stripFencesF l.length l

/-- Model of `t.match(/\x7b[\s\S]*\x7d/)`: the regex matches exactly when
some `\x7b` is followed (strictly later) by some `\x7d`; the match `m[0]`
runs from the first `\x7b` to the last `\x7d` (greedy `[\s\S]*` with
backtracking). -/
def extractBraces (l : List Char) : Option (List Char) :=
  match l.findIdx? (· = lbr) with
  | none => none
  | some i =>
    match (l.reverse.findIdx? (· = rbr)) with
    | none => none
    | some k =>
      let j := l.length - 1 - k
      if i < j then some ((l.drop i).take (j - i + 1)) else none

/-- The fence-stripping-and-trimming preprocessing of `parseJSON`:
`(text || "").replace(/```json\s*/gi, "").replace(/```\s*/g, "").trim()`. -/
def stripAll (s : String) : List Char :=
  trimChars (stripFences (stripJsonFences s.data))

/-- Transcription of the `parseJSON` helper (`src/unnamed/part_000`,
lines 25–31): strip Markdown fences and trim, try a strict parse, on
failure extract the first-`\x7b`-to-last-`\x7d` substring and retry, and on
all failures return the empty object. -/
def parseJSON (s : String) : Json :=
  match jsonParse (stripAll s) with
  | some v => v
  | none =>
    match extractBraces (stripAll s) with
    | some sub =>
      match jsonParse sub with
      | some v => v
      | none => .obj .nil
    | none => .obj .nil

/-- The processing order that claim C7 attributes to the normalizer,
written out from the claim's words: first a strict parse of the RAW text,
only on failure strip fences and retry, only on failure extract the
`\x7b...\x7d` substring and retry, and only then return the empty object.
(This differs from `parseJSON`, which strips fences before its first
parse attempt.) -/
def claimOrderParse (s : String) : Json :=
  match jsonParse s.data with
  | some v => v
  | none =>
    match jsonParse (stripAll s) with
    | some v => v
    | none =>
      match extractBraces (stripAll s) with
      | some sub =>
        match jsonParse sub with
        | some v => v
        | none => .obj .nil
      | none => .obj .nil

/-- Does `pat` occur as a contiguous sublist starting at some suffix of
`l`? -/
def containsChars (pat : List Char) : List Char → Bool
  | [] => pat.isPrefixOf []
  | c :: cs => pat.isPrefixOf (c :: cs) || containsChars pat cs

/-- Substring test (JavaScript `String.prototype.includes`). -/
def containsB (h pat : String) : Bool := containsChars pat.data h.data

/-- Wrap a serialized payload in Markdown triple-backtick fences, the way
the external model wraps its JSON answers. -/
def wrapFences (s : String) : String := "```json\n" ++ s ++ "\n```"

mutual

/-- No `NaN` occurs in the value (JSON itself has no `NaN` literal; the
`nan` constructor only models the result of JavaScript arithmetic, and
`JSON.stringify` renders it as `null`). -/
def nanFree : Json → Bool
  | .nan => false
  | .arr xs => nanFreeL xs
  | .obj ms => nanFreeM ms
  | _ => true

/-- `nanFree` on array elements. -/
def nanFreeL : JsonList → Bool
  | .nil => true
  | .cons x tl => nanFree x && nanFreeL tl

/-- `nanFree` on object members. -/
def nanFreeM : Members → Bool
  | .nil => true
  | .cons _ v tl => nanFree v && nanFreeM tl

end

mutual

/-- Fuel sufficient for `parseValue` to parse the serialization of a
value. -/
def fuelV : Json → Nat
  | .arr xs => 1 + fuelL xs
  | .obj ms => 1 + fuelM ms
  | _ => 1

/-- Fuel sufficient for `parseElems` on serialized array elements. -/
def fuelL : JsonList → Nat
  | .nil => 1
  | .cons x tl => 1 + max (fuelV x) (fuelL tl)

/-- Fuel sufficient for `parseMems` on serialized object members. -/
def fuelM : Members → Nat
  | .nil => 1
  | .cons _ v tl => 1 + max (fuelV v) (fuelM tl)

end

/-- The first character of `rest`, if any, is not a digit (the guard that
makes the greedy number parser stop exactly at the serialized number). -/
def notDigitAt (rest : List Char) : Prop :=
  match rest with
  | c :: _ => isDig c = false
  | [] => True

/-- The continuation guard for parsing a serialized value followed by
`rest`: only numbers constrain what may follow. -/
def numGuard (v : Json) (rest : List Char) : Prop :=
  match v with
  | .num _ => notDigitAt rest
  | _ => True

/-- An error thrown by the external model client (or by `JSON.parse`):
an optional HTTP status and a message, as read by `isQuotaError`. -/
structure ErrObj where
  status : Option Int
  message : String
deriving DecidableEq

/-- Transcription of `isQuotaError` (identical in all three variants:
`src/server.ts` 39–40, `src/unnamed/part_000` 42–43, `part_001` 24–25):
`e?.status === 429 || String(e?.message || "").includes("429") ||
String(e?.message || "").includes("RESOURCE_EXHAUSTED")`. -/
def isQuotaError (e : ErrObj) : Bool :=
  e.status == some 429 || containsB e.message "429" ||
    containsB e.message "RESOURCE_EXHAUSTED"

/-- Outcome of the single blocking call to the external model: either a
response whose `.text` is an optional string, or a thrown error. -/
inductive ModelOutcome where
  | ok : Option String → ModelOutcome
  | err : ErrObj → ModelOutcome
deriving DecidableEq

/-- JavaScript `a || b` for an optional string (`undefined` and `""` are
falsy). -/
def jsOrStr (o : Option String) (d : String) : String :=
  match o with
  | none => d
  | some s => if s = "" then d else s

/-- JavaScript falsiness of an optional string field (`!x`). -/
def isFalsy (o : Option String) : Bool :=
  match o with
  | none => true
  | some s => s = ""

/-- One row of the `analysis_history` table.  `createdAt` models the
`CURRENT_TIMESTAMP` default: the storage assigns it monotonically at
insert time (like `id`, one tick per insert). -/
structure Row where
  id : Nat
  userEmail : String
  type : String
  content : String
  result : String
  createdAt : Nat
deriving DecidableEq

/-- The SQLite database: the `analysis_history` table in insertion order,
plus the autoincrement/clock counter. -/
structure DB where
  rows : List Row
  next : Nat
deriving DecidableEq

/-- `INSERT INTO analysis_history (user_email, type, content, result)
VALUES (?, ?, ?, ?)`: append one immutable row; `id` and `created_at`
are assigned by the storage. -/
def DB.insert (db : DB) (email ty content : String) (res : Json) : DB :=
  { rows := db.rows ++ [⟨db.next + 1, email, ty, content, serializeStr res, db.next + 1⟩],
    next := db.next + 1 }

/-- `SELECT * FROM analysis_history WHERE user_email = ? ORDER BY
created_at DESC LIMIT lim`.  Because `created_at` is assigned
monotonically at insert time and rows are kept in insertion order,
descending `created_at` order is the reverse of insertion order. -/
def histQuery (db : DB) (email : String) (lim : Nat) : List Row :=
  ((db.rows.filter (fun r => r.userEmail == email)).reverse).take lim

/-- `GET /api/history` of the dev variant (`src/server.ts` 468–473):
`LIMIT 20`, with `email || "anonymous"`. -/
def historyDev (db : DB) (email : Option String) : List Row :=
  histQuery db (jsOrStr email "anonymous") 20

/-- `GET /api/history` of the production variant (`part_000` 294–299):
`LIMIT 20`, with `email || "anonymous"`. -/
def historyProd (db : DB) (email : Option String) : List Row :=
  histQuery db (jsOrStr email "anonymous") 20

/-- `GET /api/history` of the serverless variant (`part_001` 229–233):
`LIMIT 50`, with `email || "anonymous"`. -/
def historySl (db : DB) (email : Option String) : List Row :=
  histQuery db (jsOrStr email "anonymous") 50

/-- An HTTP response as produced by the handlers: a status code and a
JSON body (`res.json(...)` defaults to status 200). -/
structure HttpResponse where
  status : Nat
  body : Json
deriving DecidableEq

/-- The `\x7b error: ... \x7d` body of the 400/500 responses. -/
def errBody (msg : String) : Json := .obj (.cons "error" (.str msg) .nil)

/-- A multipart file upload as seen through multer (`buffer` is omitted:
it only feeds the external model and the EXIF library, both of which are
modelled as handler inputs). -/
structure FileUpload where
  originalname : String
  mimetype : String
deriving DecidableEq

/-- The request-scoped inputs of a handler: body/query fields, the
uploaded file, the outcome of the EXIF library call on the file's buffer
(`none` models `exif-parser` throwing), and the rendering of the
`Math.random()` vocabulary score used by the dev text mock. -/
structure Req where
  text : Option String
  url : Option String
  profileUrl : Option String
  userEmail : Option String
  file : Option FileUpload
  exifParsed : Option Json
  rand : String
deriving DecidableEq

/-- Build a member list from an association list (notation helper). -/
def mems : List (String × Json) → Members
  | [] => .nil
  | (k, v) :: tl => .cons k v (mems tl)

/-- Build a JSON list from a Lean list (notation helper). -/
def jarr : List Json → JsonList
  | [] => .nil
  | x :: tl => .cons x (jarr tl)

/-- `text.split(" ").length` (JavaScript word count used by the text
mocks). -/
def wordCount (text : String) : Nat := (text.splitOn " ").length

/-- `text.split(".")[0] + "."` (first sentence, dev text mock). -/
def firstSentence (text : String) : String := (text.splitOn ".").headD "" ++ "."

/-- `mockTextResult` of the dev variant (`src/server.ts` 42–58); `rand`
carries the `(Math.random() * 0.3 + 0.55).toFixed(2)` rendering. -/
def mockTextResultDev (text rand : String) : Json :=
  .obj (mems [
    ("aiProbability", .num (if text.length > 300 then 72 else 34)),
    ("humanProbability", .num (if text.length > 300 then 28 else 66)),
    ("confidence", .str "Medium"),
    ("explanation", .str ("**⚠️ Demo Mode** (API quota reset pending)\n\nBased on linguistic pattern analysis of the provided "
      ++ toString (wordCount text)
      ++ "-word text:\n\n- **Structural uniformity** detected across paragraph transitions\n- **Hedging language** appears at above-average frequency\n- **Vocabulary diversity** score: "
      ++ rand
      ++ "\n\nThis analysis is a demonstration. Full AI-powered detection resumes when the API quota resets.")),
    ("plagiarism", .obj (mems [("isPlagiarized", .bool false), ("sources", .arr .nil), ("score", .num 12)])),
    ("credibility", .obj (mems [("rating", .str "Unverified"), ("reason", .str "No source URL provided for cross-referencing.")])),
    ("comparison", .obj (mems [
      ("humanTraits", .str "Personal anecdotes, emotional language, irregular sentence lengths, unique perspective."),
      ("detectedTraits", .str "Consistent sentence structure, formal transitions, lack of personal voice, systematic paragraph flow.")])),
    ("suspiciousSections", .arr (if text.length > 200 then
      jarr [.obj (mems [
        ("text", .str (firstSentence text)),
        ("reason", .str "Opening sentence follows a common AI pattern: declarative statement without personal context."),
        ("severity", .str "Medium")])]
      else .nil))])

/-- `mockImageResult` of the dev variant (`src/server.ts` 60–68). -/
def mockImageResultDev : Json :=
  .obj (mems [
    ("aiProbability", .num 41),
    ("humanProbability", .num 59),
    ("confidence", .str "Medium"),
    ("explanation", .str "**⚠️ Demo Mode** (API quota reset pending)\n\nVisual forensic analysis detected:\n- Natural noise patterns consistent with camera sensor\n- No obvious splicing artifacts at major edges\n- Lighting direction appears consistent\n\nFull AI-powered image analysis resumes when the API quota resets."),
    ("watermarkDetected", .bool false),
    ("manipulatedRegions", .arr .nil),
    ("reverseSearch", .obj (mems [("found", .bool false), ("similarSources", .arr .nil)]))])

/-- `mockVideoResult` of the dev variant (`src/server.ts` 70–76). -/
def mockVideoResultDev : Json :=
  .obj (mems [
    ("aiProbability", .num 18),
    ("humanProbability", .num 82),
    ("confidence", .str "Low"),
    ("explanation", .str "**⚠️ Demo Mode** (API quota reset pending)\n\nDeepfake forensic scan queued. Full video analysis with facial landmark tracking, temporal consistency checks, and audio-visual sync analysis will run when API quota resets."),
    ("deepfakeSigns", .arr (jarr [.str "Demo mode — real analysis pending quota reset"]))])

/-- `mockLinkResult` of the dev variant (`src/server.ts` 78–85). -/
def mockLinkResultDev : Json :=
  .obj (mems [
    ("aiProbability", .num 55),
    ("humanProbability", .num 45),
    ("confidence", .str "Low"),
    ("explanation", .str "**⚠️ Demo Mode** (API quota reset pending)\n\nURL content could not be fully analyzed. Real-time link verification with Google Search grounding will resume when API quota resets."),
    ("sourceRating", .str "Unverified"),
    ("isFake", .bool false)])

/-- `mockProfileResult` of the dev variant (`src/server.ts` 87–93). -/
def mockProfileResultDev : Json :=
  .obj (mems [
    ("isAIInfluencer", .bool false),
    ("botProbability", .num 38),
    ("humanProbability", .num 62),
    ("explanation", .str "**⚠️ Demo Mode** (API quota reset pending)\n\nProfile signals suggest moderate bot probability based on URL pattern analysis. Full behavioral analysis will resume when API quota resets."),
    ("redFlags", .arr (jarr [
      .str "Unable to complete full analysis — API quota limit reached",
      .str "Please retry after quota resets (~6:30 AM IST)"]))])

/-- `mockTextResult` of the production variant (`part_000` 46–55). -/
def mockTextResultProd (text : String) : Json :=
  .obj (mems [
    ("aiProbability", .num (if text.length > 300 then 72 else 34)),
    ("humanProbability", .num (if text.length > 300 then 28 else 66)),
    ("confidence", .str "Medium"),
    ("explanation", .str ("**⚠️ Demo Mode** (API quota reset pending)\n\nBased on linguistic pattern analysis of the "
      ++ toString (wordCount text)
      ++ "-word text, structural uniformity and hedging language appear at above-average frequency. This is a demonstration; full AI-powered detection resumes when the quota resets.")),
    ("plagiarism", .obj (mems [("isPlagiarized", .bool false), ("sources", .arr .nil), ("score", .num 12)])),
    ("credibility", .obj (mems [("rating", .str "Unverified"), ("reason", .str "No source URL provided.")])),
    ("comparison", .obj (mems [
      ("humanTraits", .str "Personal anecdotes, irregular sentence lengths."),
      ("detectedTraits", .str "Consistent structure, formal transitions.")])),
    ("suspiciousSections", .arr .nil)])

/-- `mockImageResult` of the production variant (`part_000` 57–61). -/
def mockImageResultProd : Json :=
  .obj (mems [
    ("aiProbability", .num 41),
    ("humanProbability", .num 59),
    ("confidence", .str "Medium"),
    ("explanation", .str "**⚠️ Demo Mode** — API quota pending. Full forensic image analysis will resume when quota resets."),
    ("watermarkDetected", .bool false),
    ("manipulatedRegions", .arr .nil),
    ("reverseSearch", .obj (mems [("found", .bool false), ("similarSources", .arr .nil)]))])

/-- `mockVideoResult` of the production variant (`part_000` 63–67). -/
def mockVideoResultProd : Json :=
  .obj (mems [
    ("aiProbability", .num 18),
    ("humanProbability", .num 82),
    ("confidence", .str "Low"),
    ("explanation", .str "**⚠️ Demo Mode** — Full deepfake video analysis pending quota reset."),
    ("deepfakeSigns", .arr (jarr [.str "Demo mode — real analysis pending quota reset"]))])

/-- `mockLinkResult` of the production variant (`part_000` 69–73). -/
def mockLinkResultProd : Json :=
  .obj (mems [
    ("aiProbability", .num 55),
    ("humanProbability", .num 45),
    ("confidence", .str "Low"),
    ("explanation", .str "**⚠️ Demo Mode** — URL verification pending quota reset."),
    ("sourceRating", .str "Unverified"),
    ("isFake", .bool false)])

/-- `mockProfileResult` of the production variant (`part_000` 75–79). -/
def mockProfileResultProd : Json :=
  .obj (mems [
    ("isAIInfluencer", .bool false),
    ("botProbability", .num 38),
    ("humanProbability", .num 62),
    ("explanation", .str "**⚠️ Demo Mode** — Profile analysis pending quota reset."),
    ("redFlags", .arr (jarr [.str "API quota limit reached"]))])

/-- `mockTextResult` of the serverless variant (`part_001` 28–36). -/
def mockTextResultSl (text : String) : Json :=
  .obj (mems [
    ("aiProbability", .num (if text.length > 300 then 72 else 34)),
    ("humanProbability", .num (if text.length > 300 then 28 else 66)),
    ("confidence", .str "Medium"),
    ("explanation", .str ("**⚠️ Demo Mode** (API quota reset pending)\n\nBased on linguistic pattern analysis of the provided "
      ++ toString (wordCount text)
      ++ "-word text:\n\n- **Structural uniformity** detected across paragraph transitions\n- **Hedging language** appears at above-average frequency\n\nFull AI-powered detection resumes when the API quota resets.")),
    ("plagiarism", .obj (mems [("isPlagiarized", .bool false), ("sources", .arr .nil), ("score", .num 12)])),
    ("credibility", .obj (mems [("rating", .str "Unverified"), ("reason", .str "No source URL provided for cross-referencing.")])),
    ("comparison", .obj (mems [
      ("humanTraits", .str "Personal anecdotes, emotional language, irregular sentence lengths."),
      ("detectedTraits", .str "Consistent sentence structure, formal transitions, lack of personal voice.")])),
    ("suspiciousSections", .arr (jarr [.obj (mems [
      ("text", .str (text.take 80)),
      ("reason", .str "Overly formal sentence structure with uniform pacing."),
      ("severity", .str "Medium")])]))])

/-- `mockImageResult` of the serverless variant (`part_001` 38–44). -/
def mockImageResultSl : Json :=
  .obj (mems [
    ("aiProbability", .num 41),
    ("humanProbability", .num 59),
    ("confidence", .str "Medium"),
    ("explanation", .str "**⚠️ Demo Mode** (API quota reset pending)\n\nVisual forensic analysis detected:\n\n- Natural noise patterns consistent with camera sensor\n- No obvious splicing artifacts at major edges\n- Lighting direction appears consistent\n\nFull AI-powered image analysis resumes when the API quota resets."),
    ("watermarkDetected", .bool false),
    ("manipulatedRegions", .arr (jarr [.obj (mems [
      ("region", .str "Background"),
      ("issue", .str "Slight compression artifact detected"),
      ("severity", .str "Low")])])),
    ("reverseSearch", .obj (mems [("found", .bool false), ("similarSources", .arr .nil)]))])

/-- The inline video quota mock of the serverless variant (`part_001`
line 146). -/
def mockVideoResultSl : Json :=
  .obj (mems [
    ("aiProbability", .num 55),
    ("humanProbability", .num 45),
    ("confidence", .str "Medium"),
    ("explanation", .str "**⚠️ Demo Mode** - Video analysis unavailable during quota limit."),
    ("deepfakeSigns", .arr (jarr [.str "Quota limit reached — demo mode active"]))])

/-- The inline link quota mock of the serverless variant (`part_001`
line 178). -/
def mockLinkResultSl : Json :=
  .obj (mems [
    ("aiProbability", .num 40),
    ("humanProbability", .num 60),
    ("confidence", .str "Medium"),
    ("explanation", .str "**⚠️ Demo Mode**"),
    ("credibilityRating", .str "Unverified"),
    ("isFake", .bool false),
    ("redFlags", .arr (jarr [.str "Quota limit reached"]))])

/-- The inline profile quota mock of the serverless variant (`part_001`
line 210). -/
def mockProfileResultSl : Json :=
  .obj (mems [
    ("aiProbability", .num 35),
    ("humanProbability", .num 65),
    ("confidence", .str "Medium"),
    ("explanation", .str "**⚠️ Demo Mode**"),
    ("botProbability", .num 22),
    ("isAIInfluencer", .bool false),
    ("redFlags", .arr (jarr [.str "Quota limit reached"]))])

/-- JavaScript `x == null` (loose): true exactly for `undefined` and
`null`. -/
def isNullish (o : Option Json) : Bool :=
  match o with
  | none => true
  | some .null => true
  | some _ => false

/-- JavaScript `100 - x` under numeric coercion: defined on numbers and
booleans; every other case yields `NaN` (string-to-number coercion lies
outside the integer fragment and is collapsed to `NaN` here; no claim
exercises it). -/
def jsSub100 : Option Json → Json
  | some (.num n) => .num (100 - n)
  | some (.bool b) => .num (100 - (if b then 1 else 0))
  | _ => .nan

/-- The `humanProbability` backfill of the production variant
(`part_000` 107–109 and analogues): `if (result.aiProbability != null &&
result.humanProbability == null) result.humanProbability = 100 -
result.aiProbability`. -/
def backfill (result : Json) : Json :=
  if !isNullish (getField result "aiProbability") &&
      isNullish (getField result "humanProbability") then
    setField result "humanProbability" (jsSub100 (getField result "aiProbability"))
  else result

/-- Modelled from the spec: the `SyntaxError` thrown by the runtime's
`JSON.parse` on malformed input.  It carries no HTTP status; its exact
engine-specific message is not part of the repository, so it is modelled
as a fixed message (one without the rate-limit signature). -/
def syntaxErr : ErrObj := { status := none, message := "Unexpected token in JSON" }

/-- `userEmail || "anonymous"`. -/
def emailOf (req : Req) : String := jsOrStr req.userEmail "anonymous"

/-- A catch branch that does not write to the database (all quota
fallbacks except the dev text/image handlers): HTTP 200 with the mock on
a quota error, HTTP 500 with the raw message otherwise. -/
def plainCatch (mock : Json) (e : ErrObj) (db : DB) : HttpResponse × DB :=
  if isQuotaError e then (⟨200, mock⟩, db) else (⟨500, errBody e.message⟩, db)

/-- Catch branch of the dev text handler (`src/server.ts` 173–181): on a
quota error it also inserts the mock row before responding 200. -/
def analyzeTextDevCatch (req : Req) (text : String) (e : ErrObj) (db : DB) :
    HttpResponse × DB :=
  if isQuotaError e then
    (⟨200, mockTextResultDev text req.rand⟩,
      db.insert (emailOf req) "text" (text.take 500) (mockTextResultDev text req.rand))
  else (⟨500, errBody e.message⟩, db)

/-- `POST /api/analyze/text`, dev variant (`src/server.ts` 97–182). -/
def analyzeTextDev (req : Req) (oc : ModelOutcome) (db : DB) : HttpResponse × DB :=
  match req.text with
  | none => (⟨400, errBody "Text is required"⟩, db)
  | some text =>
    if text = "" then (⟨400, errBody "Text is required"⟩, db)
    else
      match oc with
      | .ok raw =>
        match jsonParseStr (jsOrStr raw "\x7b\x7d") with
        | some result =>
          (⟨200, result⟩, db.insert (emailOf req) "text" (text.take 500) result)
        | none => analyzeTextDevCatch req text syntaxErr db
      | .err e => analyzeTextDevCatch req text e db

/-- Catch branch of the dev image handler (`src/server.ts` 296–304): on a
quota error it also inserts the mock row before responding 200. -/
def analyzeImageDevCatch (req : Req) (file : FileUpload) (e : ErrObj) (db : DB) :
    HttpResponse × DB :=
  if isQuotaError e then
    (⟨200, mockImageResultDev⟩,
      db.insert (emailOf req) "image" ("Image: " ++ file.originalname) mockImageResultDev)
  else (⟨500, errBody e.message⟩, db)

/-- `POST /api/analyze/image`, dev variant (`src/server.ts` 184–305):
parses the EXIF metadata (empty object when the library throws), attaches
it to the parsed result as `result.exif`, and persists. -/
def analyzeImageDev (req : Req) (oc : ModelOutcome) (db : DB) : HttpResponse × DB :=
  match req.file with
  | none => (⟨400, errBody "Image is required"⟩, db)
  | some file =>
    let exifData := req.exifParsed.getD (.obj .nil)
    match oc with
    | .ok raw =>
      match jsonParseStr (jsOrStr raw "\x7b\x7d") with
      | some result =>
        let r2 := setField result "exif" exifData
        (⟨200, r2⟩, db.insert (emailOf req) "image" ("Image: " ++ file.originalname) r2)
      | none => analyzeImageDevCatch req file syntaxErr db
    | .err e => analyzeImageDevCatch req file e db

/-- `POST /api/analyze/video`, dev variant (`src/server.ts` 307–347). -/
def analyzeVideoDev (req : Req) (oc : ModelOutcome) (db : DB) : HttpResponse × DB :=
  match req.file with
  | none => (⟨400, errBody "Video is required"⟩, db)
  | some file =>
    match oc with
    | .ok raw =>
      match jsonParseStr (jsOrStr raw "\x7b\x7d") with
      | some result =>
        (⟨200, result⟩, db.insert (emailOf req) "video" ("Video: " ++ file.originalname) result)
      | none => plainCatch mockVideoResultDev syntaxErr db
    | .err e => plainCatch mockVideoResultDev e db

/-- `POST /api/analyze/link`, dev variant (`src/server.ts` 349–385). -/
def analyzeLinkDev (req : Req) (oc : ModelOutcome) (db : DB) : HttpResponse × DB :=
  match req.url with
  | none => (⟨400, errBody "URL is required"⟩, db)
  | some url =>
    if url = "" then (⟨400, errBody "URL is required"⟩, db)
    else
      match oc with
      | .ok raw =>
        match jsonParseStr (jsOrStr raw "\x7b\x7d") with
        | some result =>
          (⟨200, result⟩, db.insert (emailOf req) "link" url result)
        | none => plainCatch mockLinkResultDev syntaxErr db
      | .err e => plainCatch mockLinkResultDev e db

/-- `POST /api/analyze/profile`, dev variant (`src/server.ts` 387–421). -/
def analyzeProfileDev (req : Req) (oc : ModelOutcome) (db : DB) : HttpResponse × DB :=
  match req.profileUrl with
  | none => (⟨400, errBody "Profile URL is required"⟩, db)
  | some purl =>
    if purl = "" then (⟨400, errBody "Profile URL is required"⟩, db)
    else
      match oc with
      | .ok raw =>
        match jsonParseStr (jsOrStr raw "\x7b\x7d") with
        | some result =>
          (⟨200, result⟩, db.insert (emailOf req) "profile" purl result)
        | none => plainCatch mockProfileResultDev syntaxErr db
      | .err e => plainCatch mockProfileResultDev e db

/-- `POST /api/analyze/text`, production variant (`part_000` 83–118):
uses the robust `parseJSON` (which never throws) and the
`humanProbability` backfill; the quota fallback does NOT insert a row. -/
def analyzeTextProd (req : Req) (oc : ModelOutcome) (db : DB) : HttpResponse × DB :=
  match req.text with
  | none => (⟨400, errBody "Text is required"⟩, db)
  | some text =>
    if text = "" then (⟨400, errBody "Text is required"⟩, db)
    else
      match oc with
      | .ok raw =>
        let result := backfill (parseJSON (jsOrStr raw ""))
        (⟨200, result⟩, db.insert (emailOf req) "text" (text.take 500) result)
      | .err e => plainCatch (mockTextResultProd text) e db

/-- `POST /api/analyze/image`, production variant (`part_000` 121–173). -/
def analyzeImageProd (req : Req) (oc : ModelOutcome) (db : DB) : HttpResponse × DB :=
  match req.file with
  | none => (⟨400, errBody "Image is required"⟩, db)
  | some file =>
    let exifData := req.exifParsed.getD (.obj .nil)
    match oc with
    | .ok raw =>
      let result := setField (backfill (parseJSON (jsOrStr raw ""))) "exif" exifData
      (⟨200, result⟩,
        db.insert (emailOf req) "image"
          ("Image: " ++ (if file.originalname = "" then "upload" else file.originalname)) result)
    | .err e => plainCatch mockImageResultProd e db

/-- `POST /api/analyze/video`, production variant (`part_000` 176–213). -/
def analyzeVideoProd (req : Req) (oc : ModelOutcome) (db : DB) : HttpResponse × DB :=
  match req.file with
  | none => (⟨400, errBody "Video is required"⟩, db)
  | some file =>
    match oc with
    | .ok raw =>
      let result := backfill (parseJSON (jsOrStr raw ""))
      (⟨200, result⟩, db.insert (emailOf req) "video" ("Video: " ++ file.originalname) result)
    | .err e => plainCatch mockVideoResultProd e db

/-- `POST /api/analyze/link`, production variant (`part_000` 216–246). -/
def analyzeLinkProd (req : Req) (oc : ModelOutcome) (db : DB) : HttpResponse × DB :=
  match req.url with
  | none => (⟨400, errBody "URL is required"⟩, db)
  | some url =>
    if url = "" then (⟨400, errBody "URL is required"⟩, db)
    else
      match oc with
      | .ok raw =>
        let result := backfill (parseJSON (jsOrStr raw ""))
        (⟨200, result⟩, db.insert (emailOf req) "link" url result)
      | .err e => plainCatch mockLinkResultProd e db

/-- `POST /api/analyze/profile`, production variant (`part_000` 249–275):
note there is NO `humanProbability` backfill on this endpoint. -/
def analyzeProfileProd (req : Req) (oc : ModelOutcome) (db : DB) : HttpResponse × DB :=
  match req.profileUrl with
  | none => (⟨400, errBody "Profile URL is required"⟩, db)
  | some purl =>
    if purl = "" then (⟨400, errBody "Profile URL is required"⟩, db)
    else
      match oc with
      | .ok raw =>
        let result := parseJSON (jsOrStr raw "")
        (⟨200, result⟩, db.insert (emailOf req) "profile" purl result)
      | .err e => plainCatch mockProfileResultProd e db

/-- `POST /api/analyze/text`, serverless variant (`part_001` 47–78):
plain `JSON.parse(response.text || "\x7b\x7d")`, no backfill, quota
fallback without insert. -/
def analyzeTextSl (req : Req) (oc : ModelOutcome) (db : DB) : HttpResponse × DB :=
  match req.text with
  | none => (⟨400, errBody "Text is required"⟩, db)
  | some text =>
    if text = "" then (⟨400, errBody "Text is required"⟩, db)
    else
      match oc with
      | .ok raw =>
        match jsonParseStr (jsOrStr raw "\x7b\x7d") with
        | some result =>
          (⟨200, result⟩, db.insert (emailOf req) "text" (text.take 500) result)
        | none => plainCatch (mockTextResultSl text) syntaxErr db
      | .err e => plainCatch (mockTextResultSl text) e db

/-- `POST /api/analyze/image`, serverless variant (`part_001` 81–116). -/
def analyzeImageSl (req : Req) (oc : ModelOutcome) (db : DB) : HttpResponse × DB :=
  match req.file with
  | none => (⟨400, errBody "Image is required"⟩, db)
  | some file =>
    let exifData := req.exifParsed.getD (.obj .nil)
    match oc with
    | .ok raw =>
      match jsonParseStr (jsOrStr raw "\x7b\x7d") with
      | some result =>
        let r2 := setField result "exif" exifData
        (⟨200, r2⟩, db.insert (emailOf req) "image" ("Image: " ++ file.originalname) r2)
      | none => plainCatch mockImageResultSl syntaxErr db
    | .err e => plainCatch mockImageResultSl e db

/-- `POST /api/analyze/video`, serverless variant (`part_001` 119–149). -/
def analyzeVideoSl (req : Req) (oc : ModelOutcome) (db : DB) : HttpResponse × DB :=
  match req.file with
  | none => (⟨400, errBody "Video is required"⟩, db)
  | some file =>
    match oc with
    | .ok raw =>
      match jsonParseStr (jsOrStr raw "\x7b\x7d") with
      | some result =>
        (⟨200, result⟩, db.insert (emailOf req) "video" ("Video: " ++ file.originalname) result)
      | none => plainCatch mockVideoResultSl syntaxErr db
    | .err e => plainCatch mockVideoResultSl e db

/-- `POST /api/analyze/link`, serverless variant (`part_001` 152–181). -/
def analyzeLinkSl (req : Req) (oc : ModelOutcome) (db : DB) : HttpResponse × DB :=
  match req.url with
  | none => (⟨400, errBody "URL is required"⟩, db)
  | some url =>
    if url = "" then (⟨400, errBody "URL is required"⟩, db)
    else
      match oc with
      | .ok raw =>
        match jsonParseStr (jsOrStr raw "\x7b\x7d") with
        | some result =>
          (⟨200, result⟩, db.insert (emailOf req) "link" url result)
        | none => plainCatch mockLinkResultSl syntaxErr db
      | .err e => plainCatch mockLinkResultSl e db

/-- `POST /api/analyze/profile`, serverless variant (`part_001` 184–213):
reads the `url` body field (not `profileUrl`). -/
def analyzeProfileSl (req : Req) (oc : ModelOutcome) (db : DB) : HttpResponse × DB :=
  match req.url with
  | none => (⟨400, errBody "Profile URL is required"⟩, db)
  | some url =>
    if url = "" then (⟨400, errBody "Profile URL is required"⟩, db)
    else
      match oc with
      | .ok raw =>
        match jsonParseStr (jsOrStr raw "\x7b\x7d") with
        | some result =>
          (⟨200, result⟩, db.insert (emailOf req) "profile" url result)
        | none => plainCatch mockProfileResultSl syntaxErr db
      | .err e => plainCatch mockProfileResultSl e db

/-- Names for the fifteen analyze handlers (five endpoints across the
three server variants). -/
inductive HandlerId where
  | textDev | imageDev | videoDev | linkDev | profileDev
  | textProd | imageProd | videoProd | linkProd | profileProd
  | textSl | imageSl | videoSl | linkSl | profileSl
deriving DecidableEq

/-- Dispatch a request to the named handler. -/
def runAnalyze : HandlerId → Req → ModelOutcome → DB → HttpResponse × DB
  | .textDev => analyzeTextDev
  | .imageDev => analyzeImageDev
  | .videoDev => analyzeVideoDev
  | .linkDev => analyzeLinkDev
  | .profileDev => analyzeProfileDev
  | .textProd => analyzeTextProd
  | .imageProd => analyzeImageProd
  | .videoProd => analyzeVideoProd
  | .linkProd => analyzeLinkProd
  | .profileProd => analyzeProfileProd
  | .textSl => analyzeTextSl
  | .imageSl => analyzeImageSl
  | .videoSl => analyzeVideoSl
  | .linkSl => analyzeLinkSl
  | .profileSl => analyzeProfileSl

/-- Does the request pass the handler's missing-field guard (the check
that precedes the `try` block), so that the external model call is
reached? -/
def guardPasses : HandlerId → Req → Bool
  | .textDev, req => !isFalsy req.text
  | .textProd, req => !isFalsy req.text
  | .textSl, req => !isFalsy req.text
  | .imageDev, req => req.file.isSome
  | .imageProd, req => req.file.isSome
  | .imageSl, req => req.file.isSome
  | .videoDev, req => req.file.isSome
  | .videoProd, req => req.file.isSome
  | .videoSl, req => req.file.isSome
  | .linkDev, req => !isFalsy req.url
  | .linkProd, req => !isFalsy req.url
  | .linkSl, req => !isFalsy req.url
  | .profileDev, req => !isFalsy req.profileUrl
  | .profileProd, req => !isFalsy req.profileUrl
  | .profileSl, req => !isFalsy req.url

/-- Is this one of the three `/api/analyze/text` handlers? -/
def isTextEndpoint : HandlerId → Bool
  | .textDev => true
  | .textProd => true
  | .textSl => true
  | _ => false

/-- The only two handlers whose quota-fallback path inserts a row (the
dev text and image handlers); every other quota fallback returns the
mock without persisting anything. -/
def insertsOnQuota : HandlerId → Bool
  | .textDev => true
  | .imageDev => true
  | _ => false

/-- The rows of `db` survive unchanged as a prefix of the rows of `db2`:
nothing already written was mutated or deleted. -/
def preservesRows (db db2 : DB) : Prop := ∃ suff, db2.rows = db.rows ++ suff

/-- Every operation of the system that can touch the `analysis_history`
table, plus the endpoints that never do (`/api/chat`, `/api/generate`,
`/api/compare`, and the history reads, which only SELECT). -/
inductive SysOp where
  | analyze (h : HandlerId) (req : Req) (oc : ModelOutcome)
  | historyRead (email : Option String)
  | chat
  | generate
  | compare

/-- The effect of one operation on the database state (reads and the
chat/generate/compare endpoints never modify it; every write in the
source is a single INSERT). -/
def step : SysOp → DB → DB
  | .analyze h req oc, db => (runAnalyze h req oc db).2
  | .historyRead _, db => db
  | .chat, db => db
  | .generate, db => db
  | .compare, db => db

/-- Does the response body carry an `explanation` string containing the
literal `"Demo Mode"`? -/
def demoModeB (b : Json) : Bool :=
  match getField b "explanation" with
  | some (.str s) => containsB s "Demo Mode"
  | _ => false

/-- Does the body carry numeric `aiProbability` and `humanProbability`
fields summing to 100? -/
def sums100B (b : Json) : Bool :=
  match getField b "aiProbability", getField b "humanProbability" with
  | some (.num a), some (.num h) => a + h == 100
  | _, _ => false

/-- Example request carrying a text body (used by witnesses). -/
def exReqText : Req := ⟨some "hello world", none, none, none, none, none, "0.62"⟩

/-- Example request carrying an image upload (used by witnesses). -/
def exReqImage : Req :=
  ⟨none, none, none, none, some ⟨"photo.jpg", "image/jpeg"⟩, none, "0.62"⟩

/-- Example request carrying a url (used by witnesses). -/
def exReqLink : Req := ⟨none, some "http://example.com", none, none, none, none, "0.62"⟩

/-- Example request carrying a profile url (used by witnesses). -/
def exReqProfile : Req :=
  ⟨none, some "http://example.com/p", some "http://example.com/p", none, none, none, "0.62"⟩

/-- A rate-limit error with HTTP status 429. -/
def ex429 : ErrObj := ⟨some 429, "quota exhausted"⟩

/-- An error whose message merely contains `"429"` as part of the number
4290 (classified as quota exhaustion by `isQuotaError`). -/
def ex429Msg : ErrObj := ⟨none, "upstream failure in request 4290"⟩

/-- The empty database. -/
def exDb : DB := ⟨[], 0⟩

/-- A substring of `a` is a substring of `a ++ b`. -/
theorem containsChars_append_left (pat a b : List Char)
    (h : containsChars pat a = true) : containsChars pat (a ++ b) = true := by
  induction a with
  | nil =>
    simp [containsChars, List.isPrefixOf] at h
    subst h
    cases b with
    | nil => simp [containsChars, List.isPrefixOf]
    | cons c cs => simp [containsChars, List.isPrefixOf]
  | cons c cs ih =>
    simp [containsChars] at h ⊢
    rcases h with h | h
    · left
      exact List.IsPrefix.trans h (List.prefix_append (c :: cs) b)
    · right
      exact ih h

/-- String version of `containsChars_append_left`. -/
theorem containsB_append_left (a b pat : String)
    (h : containsB a pat = true) : containsB (a ++ b) pat = true := by
  unfold containsB at h ⊢
  rw [String.data_append]
  exact containsChars_append_left _ _ _ h

/-- The dev text mock always explains itself as Demo Mode, whatever the
input text and random score. -/
theorem demoModeB_textDev (t r : String) :
    demoModeB (mockTextResultDev t r) = true := by
  simp only [demoModeB, mockTextResultDev, mems, getField, getMem]
  norm_num
  apply containsB_append_left
  apply containsB_append_left
  apply containsB_append_left
  apply containsB_append_left
  decide

/-- The production text mock always explains itself as Demo Mode. -/
theorem demoModeB_textProd (t : String) :
    demoModeB (mockTextResultProd t) = true := by
  simp only [demoModeB, mockTextResultProd, mems, getField, getMem]
  norm_num
  apply containsB_append_left
  apply containsB_append_left
  decide

/-- The serverless text mock always explains itself as Demo Mode. -/
theorem demoModeB_textSl (t : String) :
    demoModeB (mockTextResultSl t) = true := by
  simp only [demoModeB, mockTextResultSl, mems, getField, getMem]
  norm_num
  apply containsB_append_left
  apply containsB_append_left
  decide

/-- Every quota-classified error reaching any of the fifteen analyze
handlers (after the missing-field guard) yields HTTP 200 with a body
whose explanation contains "Demo Mode". -/
theorem quotaFallback (h : HandlerId) (req : Req) (e : ErrObj) (db : DB)
    (hg : guardPasses h req = true) (hq : isQuotaError e = true) :
    (runAnalyze h req (.err e) db).1.status = 200 ∧
      demoModeB (runAnalyze h req (.err e) db).1.body = true := by
  cases h with
  | textDev =>
    simp only [guardPasses] at hg
    cases hreq : req.text with
    | none => rw [hreq] at hg; simp [isFalsy] at hg
    | some t =>
      rw [hreq] at hg
      simp [isFalsy] at hg
      simp only [runAnalyze, analyzeTextDev, hreq]
      rw [if_neg hg]
      simp [analyzeTextDevCatch, hq]
      exact demoModeB_textDev t req.rand
  | imageDev =>
    simp only [guardPasses] at hg
    cases hreq : req.file with
    | none => rw [hreq] at hg; simp at hg
    | some f =>
      simp only [runAnalyze, analyzeImageDev, hreq]
      simp [analyzeImageDevCatch, hq]
      decide
  | videoDev =>
    simp only [guardPasses] at hg
    cases hreq : req.file with
    | none => rw [hreq] at hg; simp at hg
    | some f =>
      simp only [runAnalyze, analyzeVideoDev, hreq]
      simp [plainCatch, hq]
      decide
  | linkDev =>
    simp only [guardPasses] at hg
    cases hreq : req.url with
    | none => rw [hreq] at hg; simp [isFalsy] at hg
    | some u =>
      rw [hreq] at hg
      simp [isFalsy] at hg
      simp only [runAnalyze, analyzeLinkDev, hreq]
      rw [if_neg hg]
      simp [plainCatch, hq]
      decide
  | profileDev =>
    simp only [guardPasses] at hg
    cases hreq : req.profileUrl with
    | none => rw [hreq] at hg; simp [isFalsy] at hg
    | some p =>
      rw [hreq] at hg
      simp [isFalsy] at hg
      simp only [runAnalyze, analyzeProfileDev, hreq]
      rw [if_neg hg]
      simp [plainCatch, hq]
      decide
  | textProd =>
    simp only [guardPasses] at hg
    cases hreq : req.text with
    | none => rw [hreq] at hg; simp [isFalsy] at hg
    | some t =>
      rw [hreq] at hg
      simp [isFalsy] at hg
      simp only [runAnalyze, analyzeTextProd, hreq]
      rw [if_neg hg]
      simp [plainCatch, hq]
      exact demoModeB_textProd t
  | imageProd =>
    simp only [guardPasses] at hg
    cases hreq : req.file with
    | none => rw [hreq] at hg; simp at hg
    | some f =>
      simp only [runAnalyze, analyzeImageProd, hreq]
      simp [plainCatch, hq]
      decide
  | videoProd =>
    simp only [guardPasses] at hg
    cases hreq : req.file with
    | none => rw [hreq] at hg; simp at hg
    | some f =>
      simp only [runAnalyze, analyzeVideoProd, hreq]
      simp [plainCatch, hq]
      decide
  | linkProd =>
    simp only [guardPasses] at hg
    cases hreq : req.url with
    | none => rw [hreq] at hg; simp [isFalsy] at hg
    | some u =>
      rw [hreq] at hg
      simp [isFalsy] at hg
      simp only [runAnalyze, analyzeLinkProd, hreq]
      rw [if_neg hg]
      simp [plainCatch, hq]
      decide
  | profileProd =>
    simp only [guardPasses] at hg
    cases hreq : req.profileUrl with
    | none => rw [hreq] at hg; simp [isFalsy] at hg
    | some p =>
      rw [hreq] at hg
      simp [isFalsy] at hg
      simp only [runAnalyze, analyzeProfileProd, hreq]
      rw [if_neg hg]
      simp [plainCatch, hq]
      decide
  | textSl =>
    simp only [guardPasses] at hg
    cases hreq : req.text with
    | none => rw [hreq] at hg; simp [isFalsy] at hg
    | some t =>
      rw [hreq] at hg
      simp [isFalsy] at hg
      simp only [runAnalyze, analyzeTextSl, hreq]
      rw [if_neg hg]
      simp [plainCatch, hq]
      exact demoModeB_textSl t
  | imageSl =>
    simp only [guardPasses] at hg
    cases hreq : req.file with
    | none => rw [hreq] at hg; simp at hg
    | some f =>
      simp only [runAnalyze, analyzeImageSl, hreq]
      simp [plainCatch, hq]
      decide
  | videoSl =>
    simp only [guardPasses] at hg
    cases hreq : req.file with
    | none => rw [hreq] at hg; simp at hg
    | some f =>
      simp only [runAnalyze, analyzeVideoSl, hreq]
      simp [plainCatch, hq]
      decide
  | linkSl =>
    simp only [guardPasses] at hg
    cases hreq : req.url with
    | none => rw [hreq] at hg; simp [isFalsy] at hg
    | some u =>
      rw [hreq] at hg
      simp [isFalsy] at hg
      simp only [runAnalyze, analyzeLinkSl, hreq]
      rw [if_neg hg]
      simp [plainCatch, hq]
      decide
  | profileSl =>
    simp only [guardPasses] at hg
    cases hreq : req.url with
    | none => rw [hreq] at hg; simp [isFalsy] at hg
    | some u =>
      rw [hreq] at hg
      simp [isFalsy] at hg
      simp only [runAnalyze, analyzeProfileSl, hreq]
      rw [if_neg hg]
      simp [plainCatch, hq]
      decide

/-- C2: for every analyze endpoint in every variant, an external-model
error matching the rate-limit signature yields HTTP 200 with a canned
body whose explanation contains "Demo Mode", and never HTTP 500. -/
theorem c2_quota_demo_mode (h : HandlerId) (req : Req) (e : ErrObj) (db : DB)
    (hg : guardPasses h req = true) (hq : isQuotaError e = true) :
    (runAnalyze h req (.err e) db).1.status = 200 ∧
      demoModeB (runAnalyze h req (.err e) db).1.body = true ∧
      (runAnalyze h req (.err e) db).1.status ≠ 500 := by
  obtain ⟨h200, hdemo⟩ := quotaFallback h req e db hg hq
  refine ⟨h200, hdemo, ?_⟩
  rw [h200]
  omega

/-- Witness for C2 at a concrete input: the production text handler with
a thrown 429. -/
theorem c2_witness :
    (runAnalyze .textProd exReqText (.err ex429) exDb).1.status = 200 ∧
      demoModeB (runAnalyze .textProd exReqText (.err ex429) exDb).1.body = true ∧
      (runAnalyze .textProd exReqText (.err ex429) exDb).1.status ≠ 500 :=
  c2_quota_demo_mode .textProd exReqText ex429 exDb (by decide) (by decide)

/-- C3: submitting an empty text string to any of the three text
handlers returns HTTP 400 with an error object and leaves the database
untouched. -/
theorem c3_empty_text_rejected (h : HandlerId) (req : Req) (oc : ModelOutcome)
    (db : DB) (hh : isTextEndpoint h = true) (ht : req.text = some "") :
    runAnalyze h req oc db = (⟨400, errBody "Text is required"⟩, db) := by
  cases h <;> simp [isTextEndpoint] at hh <;>
    simp [runAnalyze, analyzeTextDev, analyzeTextProd, analyzeTextSl, ht]

/-- Witness for C3 at a concrete input. -/
theorem c3_witness :
    runAnalyze .textDev ⟨some "", none, none, none, none, none, "0.62"⟩ (.err ex429) exDb =
      (⟨400, errBody "Text is required"⟩, exDb) :=
  c3_empty_text_rejected .textDev ⟨some "", none, none, none, none, none, "0.62"⟩
    (.err ex429) exDb (by decide) (by decide)

/-- C10: `isQuotaError` holds exactly for status 429 or a message
containing "429" or "RESOURCE_EXHAUSTED"; consequently any upstream
failure whose message merely contains "429" is converted into a
fabricated HTTP 200 demo result instead of HTTP 500. -/
theorem c10_quota_classifier :
    (∀ e : ErrObj, isQuotaError e = true ↔
      (e.status = some 429 ∨ containsB e.message "429" = true ∨
        containsB e.message "RESOURCE_EXHAUSTED" = true)) ∧
    (∀ (h : HandlerId) (req : Req) (e : ErrObj) (db : DB),
      guardPasses h req = true → containsB e.message "429" = true →
      (runAnalyze h req (.err e) db).1.status = 200 ∧
        demoModeB (runAnalyze h req (.err e) db).1.body = true ∧
        (runAnalyze h req (.err e) db).1.status ≠ 500) := by
  constructor
  · intro e
    simp [isQuotaError]
    tauto
  · intro h req e db hg hmsg
    have hq : isQuotaError e = true := by simp [isQuotaError, hmsg]
    obtain ⟨h200, hdemo⟩ := quotaFallback h req e db hg hq
    refine ⟨h200, hdemo, ?_⟩
    rw [h200]
    omega

/-- Witness for C10 at a concrete input: a message containing "429" only
as part of the number 4290. -/
theorem c10_witness :
    (isQuotaError ex429Msg = true ↔
      (ex429Msg.status = some 429 ∨ containsB ex429Msg.message "429" = true ∨
        containsB ex429Msg.message "RESOURCE_EXHAUSTED" = true)) ∧
    ((runAnalyze .textSl exReqText (.err ex429Msg) exDb).1.status = 200 ∧
      demoModeB (runAnalyze .textSl exReqText (.err ex429Msg) exDb).1.body = true ∧
      (runAnalyze .textSl exReqText (.err ex429Msg) exDb).1.status ≠ 500) :=
  ⟨c10_quota_classifier.1 ex429Msg,
    c10_quota_classifier.2 .textSl exReqText ex429Msg exDb (by decide) (by decide)⟩

/-- C4: the history query returns exactly the two rows of a
twice-inserted identifier (most recent first), zero rows for an unused
identifier, and never more rows than the configured limit (20 for the
dev and production variants, 50 for the serverless one). -/
theorem c4_history :
    (∀ (db : DB) (x t1 c1 t2 c2 : String) (j1 j2 : Json), x ≠ "" →
      db.rows.filter (fun r => r.userEmail == x) = [] →
      (historyDev ((db.insert x t1 c1 j1).insert x t2 c2 j2) (some x) =
          [⟨db.next + 1 + 1, x, t2, c2, serializeStr j2, db.next + 1 + 1⟩,
           ⟨db.next + 1, x, t1, c1, serializeStr j1, db.next + 1⟩] ∧
        historyProd ((db.insert x t1 c1 j1).insert x t2 c2 j2) (some x) =
          [⟨db.next + 1 + 1, x, t2, c2, serializeStr j2, db.next + 1 + 1⟩,
           ⟨db.next + 1, x, t1, c1, serializeStr j1, db.next + 1⟩] ∧
        historySl ((db.insert x t1 c1 j1).insert x t2 c2 j2) (some x) =
          [⟨db.next + 1 + 1, x, t2, c2, serializeStr j2, db.next + 1 + 1⟩,
           ⟨db.next + 1, x, t1, c1, serializeStr j1, db.next + 1⟩])) ∧
    (∀ (db : DB) (y : String), y ≠ "" →
      db.rows.filter (fun r => r.userEmail == y) = [] →
      historyDev db (some y) = [] ∧ historyProd db (some y) = [] ∧
        historySl db (some y) = []) ∧
    (∀ (db : DB) (em : Option String),
      (historyDev db em).length ≤ 20 ∧ (historyProd db em).length ≤ 20 ∧
        (historySl db em).length ≤ 50) := by
  refine ⟨?_, ?_, ?_⟩
  · intro db x t1 c1 t2 c2 j1 j2 hx hdb
    simp only [historyDev, historyProd, historySl, histQuery, DB.insert, jsOrStr]
    rw [if_neg hx]
    simp [List.filter_append, hdb, List.take]
  · intro db y hy hdb
    simp only [historyDev, historyProd, historySl, histQuery, jsOrStr]
    rw [if_neg hy]
    simp [hdb]
  · intro db em
    simp only [historyDev, historyProd, historySl, histQuery]
    refine ⟨?_, ?_, ?_⟩ <;> simp [List.length_take]


/-- Witness for C4 at concrete inputs. -/
theorem c4_witness :
    (historyDev ((exDb.insert "u" "text" "hello" (.num 1)).insert "u" "link" "url" (.num 2)) (some "u") =
        [⟨2, "u", "link", "url", serializeStr (.num 2), 2⟩,
         ⟨1, "u", "text", "hello", serializeStr (.num 1), 1⟩] ∧
      historyProd ((exDb.insert "u" "text" "hello" (.num 1)).insert "u" "link" "url" (.num 2)) (some "u") =
        [⟨2, "u", "link", "url", serializeStr (.num 2), 2⟩,
         ⟨1, "u", "text", "hello", serializeStr (.num 1), 1⟩] ∧
      historySl ((exDb.insert "u" "text" "hello" (.num 1)).insert "u" "link" "url" (.num 2)) (some "u") =
        [⟨2, "u", "link", "url", serializeStr (.num 2), 2⟩,
         ⟨1, "u", "text", "hello", serializeStr (.num 1), 1⟩]) ∧
    (historyDev exDb (some "nobody") = [] ∧ historyProd exDb (some "nobody") = [] ∧
      historySl exDb (some "nobody") = []) ∧
    ((historyDev exDb none).length ≤ 20 ∧ (historyProd exDb none).length ≤ 20 ∧
      (historySl exDb none).length ≤ 50) :=
  ⟨c4_history.1 exDb "u" "text" "hello" "link" "url" (.num 1) (.num 2) (by decide) (by decide),
   c4_history.2.1 exDb "nobody" (by decide) (by decide),
   c4_history.2.2 exDb none⟩

/-- Overwriting a key makes it read back as the written value. -/
theorem getMem_setMem_self (ms : Members) (k : String) (v : Json) :
    getMem (setMem ms k v) k = some v := by
  cases ms with
  | nil => simp [setMem, getMem]
  | cons k2 w rest =>
    by_cases hk : k2 = k
    · simp [setMem, hk, getMem]
    · simp [setMem, hk, getMem, getMem_setMem_self rest k v]

/-- Overwriting a key leaves every other key unchanged. -/
theorem getMem_setMem_ne (ms : Members) (k k2 : String) (v : Json) (h : k ≠ k2) :
    getMem (setMem ms k v) k2 = getMem ms k2 := by
  cases ms with
  | nil => simp [setMem, getMem, h]
  | cons k3 w rest =>
    by_cases hk : k3 = k
    · subst hk
      simp [setMem, getMem, h]
    · simp [setMem, hk, getMem, getMem_setMem_ne rest k k2 v h]

/-- `(some raw) || ""` is `raw` itself. -/
theorem jsOrStr_some_empty (raw : String) : jsOrStr (some raw) "" = raw := by
  simp [jsOrStr]
  intro h
  exact h.symm

/-- C1 counterexample: a model response supplying ONLY `humanProbability`
passes through the production text handler (the only variant with a
backfill) with no complement added, so the returned JSON does not satisfy
`humanProbability + aiProbability = 100`. -/
theorem c1_counterexample :
    (runAnalyze .textProd exReqText
        (.ok (some "\x7b\"humanProbability\": 40\x7d")) exDb).1.status = 200 ∧
      sums100B (runAnalyze .textProd exReqText
        (.ok (some "\x7b\"humanProbability\": 40\x7d")) exDb).1.body = false := by
  decide

/-- C1 (amended): in the production variant, when the parsed model
payload supplies a numeric `aiProbability` and a nullish (missing or
null) `humanProbability`, the backfill makes the returned JSON satisfy
`humanProbability + aiProbability = 100`. -/
theorem c1_backfill_sum (req : Req) (text raw : String) (db : DB) (a : Int)
    (hreq : req.text = some text) (ht : text ≠ "")
    (ha : getField (parseJSON raw) "aiProbability" = some (.num a))
    (hh : isNullish (getField (parseJSON raw) "humanProbability") = true) :
    sums100B (runAnalyze .textProd req (.ok (some raw)) db).1.body = true := by
  simp only [runAnalyze, analyzeTextProd, hreq]
  rw [if_neg ht]
  simp only [jsOrStr_some_empty]
  have hobj : ∃ ms, parseJSON raw = .obj ms := by
    cases hr : parseJSON raw <;> rw [hr] at ha <;> simp [getField] at ha
    exact ⟨_, rfl⟩
  obtain ⟨ms, hms⟩ := hobj
  rw [hms] at ha hh
  simp only [backfill, hms, ha, hh]
  simp only [getField] at ha
  simp [isNullish]
  simp only [sums100B, jsSub100, setField, getField]
  rw [getMem_setMem_ne _ _ _ _ (by decide), ha, getMem_setMem_self]
  simp

/-- Witness for C1 (amended) at a concrete input supplying only
`aiProbability`. -/
theorem c1_witness :
    sums100B (runAnalyze .textProd exReqText
      (.ok (some "\x7b\"aiProbability\": 30\x7d")) exDb).1.body = true :=
  c1_backfill_sum exReqText "hello world" "\x7b\"aiProbability\": 30\x7d" exDb 30
    (by decide) (by decide) (by decide) (by decide)

/-- C6 counterexample: the input `"42"` contains no `\x7b...\x7d` pattern
(the regex does not match), yet `parseJSON` returns the number 42 — not
the empty object — because the strict parse of the stripped input
succeeds. -/
theorem c6_counterexample :
    extractBraces (String.data "42") = none ∧
      extractBraces (stripAll "42") = none ∧
      parseJSON "42" = Json.num 42 ∧
      parseJSON "42" ≠ Json.obj .nil := by
  decide

/-- C6 (amended): for every input whose fence-stripped, trimmed form
fails the strict parse AND contains no `\x7b...\x7d` pattern, `parseJSON`
returns the empty object (and, being a total function of the input
string, never throws). -/
theorem c6_no_pattern_empty_object (s : String)
    (h1 : jsonParse (stripAll s) = none)
    (h2 : extractBraces (stripAll s) = none) :
    parseJSON s = Json.obj .nil := by
  simp [parseJSON, h1, h2]

/-- Witness for C6 (amended) at a concrete input. -/
theorem c6_witness : parseJSON "hello" = Json.obj .nil :=
  c6_no_pattern_empty_object "hello" (by decide) (by decide)

/-- C7 counterexample: on the input `\x7b"a":"```"\x7d` — valid JSON whose
string value contains a triple backtick — a normalizer that attempted a
strict parse of the RAW text first (as the claim describes) would return
the object with value `"```"`; the real `parseJSON` strips fences before
its first parse attempt and returns the object with value `""`. -/
theorem c7_counterexample :
    jsonParseStr "\x7b\"a\":\"```\"\x7d" = some (Json.obj (.cons "a" (.str "```") .nil)) ∧
      claimOrderParse "\x7b\"a\":\"```\"\x7d" = Json.obj (.cons "a" (.str "```") .nil) ∧
      parseJSON "\x7b\"a\":\"```\"\x7d" = Json.obj (.cons "a" (.str "") .nil) ∧
      claimOrderParse "\x7b\"a\":\"```\"\x7d" ≠ parseJSON "\x7b\"a\":\"```\"\x7d" := by
  decide

/-- C7 (amended): the normalizer FIRST strips triple-backtick fences and
trims, then attempts the strict parse; only on failure does it extract
the first-`\x7b`-to-last-`\x7d` substring and retry; and only when all
attempts fail does it return the empty object. -/
theorem c7_processing_order (s : String) :
    (∀ v, jsonParse (stripAll s) = some v → parseJSON s = v) ∧
      (∀ sub v, jsonParse (stripAll s) = none →
        extractBraces (stripAll s) = some sub → jsonParse sub = some v →
        parseJSON s = v) ∧
      (jsonParse (stripAll s) = none → extractBraces (stripAll s) = none →
        parseJSON s = Json.obj .nil) ∧
      (∀ sub, jsonParse (stripAll s) = none →
        extractBraces (stripAll s) = some sub → jsonParse sub = none →
        parseJSON s = Json.obj .nil) := by
  refine ⟨?_, ?_, ?_, ?_⟩
  · intro v hv
    simp [parseJSON, hv]
  · intro sub v h1 h2 h3
    simp [parseJSON, h1, h2, h3]
  · intro h1 h2
    simp [parseJSON, h1, h2]
  · intro sub h1 h2 h3
    simp [parseJSON, h1, h2, h3]

/-- Witness for C7 (amended) at a concrete fenced input. -/
theorem c7_witness :
    parseJSON "```json\n\x7b\"k\":1\x7d\n```" = Json.obj (.cons "k" (.num 1) .nil) :=
  (c7_processing_order "```json\n\x7b\"k\":1\x7d\n```").1
    (Json.obj (.cons "k" (.num 1) .nil)) (by decide)

/-- The modelled `JSON.parse` failure is not classified as a quota
error. -/
theorem isQuotaError_syntaxErr : isQuotaError syntaxErr = false := by decide

/-- A database preserves its own rows. -/
theorem preservesRows_rfl (db : DB) : preservesRows db db := ⟨[], by simp⟩

/-- An insert preserves all existing rows. -/
theorem preservesRows_insert (db : DB) (e t c : String) (r : Json) :
    preservesRows db (db.insert e t c r) := ⟨_, rfl⟩

/-- C8 counterexample: the production text handler's quota fallback is an
analysis call that answers HTTP 200 with a Demo-Mode body, yet creates no
`analysis_history` row — the table is unchanged. -/
theorem c8_counterexample :
    (runAnalyze .textProd exReqText (.err ex429) exDb).1.status = 200 ∧
      demoModeB (runAnalyze .textProd exReqText (.err ex429) exDb).1.body = true ∧
      (runAnalyze .textProd exReqText (.err ex429) exDb).2 = exDb := by
  decide

/-- C8 (amended): a row is created on each analysis call that answers 200
from a model response; on the quota-fallback path only the dev text and
image handlers insert (one row), every other quota fallback leaves the
database untouched; and no operation of the system ever mutates or
deletes an existing row (the rows only ever grow by appending). -/
theorem c8_row_lifecycle :
    (∀ (h : HandlerId) (req : Req) (raw : Option String) (db : DB),
      (runAnalyze h req (.ok raw) db).1.status = 200 →
      (runAnalyze h req (.ok raw) db).2.rows.length = db.rows.length + 1) ∧
    (∀ (req : Req) (e : ErrObj) (db : DB), guardPasses .textDev req = true →
      isQuotaError e = true →
      (runAnalyze .textDev req (.err e) db).2.rows.length = db.rows.length + 1) ∧
    (∀ (req : Req) (e : ErrObj) (db : DB), guardPasses .imageDev req = true →
      isQuotaError e = true →
      (runAnalyze .imageDev req (.err e) db).2.rows.length = db.rows.length + 1) ∧
    (∀ (h : HandlerId) (req : Req) (e : ErrObj) (db : DB),
      insertsOnQuota h = false → isQuotaError e = true →
      (runAnalyze h req (.err e) db).2 = db) ∧
    (∀ (op : SysOp) (db : DB), preservesRows db (step op db)) := by
  refine ⟨?_, ?_, ?_, ?_, ?_⟩
  · intro h req raw db
    cases h <;>
      simp only [runAnalyze, analyzeTextDev, analyzeImageDev, analyzeVideoDev,
        analyzeLinkDev, analyzeProfileDev, analyzeTextProd, analyzeImageProd,
        analyzeVideoProd, analyzeLinkProd, analyzeProfileProd, analyzeTextSl,
        analyzeImageSl, analyzeVideoSl, analyzeLinkSl, analyzeProfileSl,
        analyzeTextDevCatch, analyzeImageDevCatch, plainCatch,
        isQuotaError_syntaxErr] <;>
      repeat' split
    all_goals intro h200
    all_goals simp_all [DB.insert]
  · intro req e db hg hq
    simp only [guardPasses] at hg
    cases hreq : req.text with
    | none => rw [hreq] at hg; simp [isFalsy] at hg
    | some t =>
      rw [hreq] at hg
      simp [isFalsy] at hg
      simp only [runAnalyze, analyzeTextDev, hreq]
      rw [if_neg hg]
      simp [analyzeTextDevCatch, hq, DB.insert]
  · intro req e db hg hq
    simp only [guardPasses] at hg
    cases hreq : req.file with
    | none => rw [hreq] at hg; simp at hg
    | some f =>
      simp only [runAnalyze, analyzeImageDev, hreq]
      simp [analyzeImageDevCatch, hq, DB.insert]
  · intro h req e db hins hq
    cases h
    case textDev => simp [insertsOnQuota] at hins
    case imageDev => simp [insertsOnQuota] at hins
    all_goals
      simp only [runAnalyze, analyzeVideoDev, analyzeLinkDev, analyzeProfileDev,
        analyzeTextProd, analyzeImageProd, analyzeVideoProd, analyzeLinkProd,
        analyzeProfileProd, analyzeTextSl, analyzeImageSl, analyzeVideoSl,
        analyzeLinkSl, analyzeProfileSl, plainCatch, hq]
    all_goals repeat' split
    all_goals rfl
  · intro op db
    cases op with
    | analyze h req oc =>
      cases h <;> cases oc <;>
        simp only [step, runAnalyze, analyzeTextDev, analyzeImageDev, analyzeVideoDev,
          analyzeLinkDev, analyzeProfileDev, analyzeTextProd, analyzeImageProd,
          analyzeVideoProd, analyzeLinkProd, analyzeProfileProd, analyzeTextSl,
          analyzeImageSl, analyzeVideoSl, analyzeLinkSl, analyzeProfileSl,
          analyzeTextDevCatch, analyzeImageDevCatch, plainCatch] <;>
        repeat' split
      all_goals first
        | exact preservesRows_rfl _
        | exact preservesRows_insert _ _ _ _ _
    | historyRead em => exact preservesRows_rfl _
    | chat => exact preservesRows_rfl _
    | generate => exact preservesRows_rfl _
    | compare => exact preservesRows_rfl _

/-- Witness for C8 (amended) at concrete inputs. -/
theorem c8_witness :
    (runAnalyze .textProd exReqText (.ok (some "\x7b\x7d")) exDb).2.rows.length =
        exDb.rows.length + 1 ∧
      (runAnalyze .textDev exReqText (.err ex429) exDb).2.rows.length =
        exDb.rows.length + 1 ∧
      (runAnalyze .imageDev exReqImage (.err ex429) exDb).2.rows.length =
        exDb.rows.length + 1 ∧
      (runAnalyze .textSl exReqText (.err ex429) exDb).2 = exDb ∧
      preservesRows exDb (step .chat exDb) :=
  ⟨c8_row_lifecycle.1 .textProd exReqText (some "\x7b\x7d") exDb (by decide),
   c8_row_lifecycle.2.1 exReqText ex429 exDb (by decide) (by decide),
   c8_row_lifecycle.2.2.1 exReqImage ex429 exDb (by decide) (by decide),
   c8_row_lifecycle.2.2.2.1 .textSl exReqText ex429 exDb (by decide) (by decide),
   c8_row_lifecycle.2.2.2.2 .chat exDb⟩

/-- C9 counterexample: the dev image handler's quota-fallback response is
HTTP 200 but carries NO `exif` field (`mockImageResult` has none). -/
theorem c9_counterexample :
    (runAnalyze .imageDev exReqImage (.err ex429) exDb).1.status = 200 ∧
      getField (runAnalyze .imageDev exReqImage (.err ex429) exDb).1.body "exif" =
        none := by
  decide

/-- C9 (amended): the dev image handler returns 400 when the file is
missing; every success response re-attaches the EXIF metadata as the
`exif` field (the empty object when EXIF parsing failed); but the
quota-fallback response is the mock, which carries no `exif` field. -/
theorem c9_image_exif :
    (∀ (req : Req) (oc : ModelOutcome) (db : DB), req.file = none →
      (runAnalyze .imageDev req oc db).1 = ⟨400, errBody "Image is required"⟩) ∧
    (∀ (req : Req) (file : FileUpload) (raw : Option String) (ms : Members) (db : DB),
      req.file = some file →
      jsonParseStr (jsOrStr raw "\x7b\x7d") = some (.obj ms) →
      getField (runAnalyze .imageDev req (.ok raw) db).1.body "exif" =
        some (req.exifParsed.getD (.obj .nil))) ∧
    (∀ (req : Req) (file : FileUpload) (e : ErrObj) (db : DB),
      req.file = some file → isQuotaError e = true →
      (runAnalyze .imageDev req (.err e) db).1 = ⟨200, mockImageResultDev⟩ ∧
        getField mockImageResultDev "exif" = none) := by
  refine ⟨?_, ?_, ?_⟩
  · intro req oc db hfile
    simp [runAnalyze, analyzeImageDev, hfile]
  · intro req file raw ms db hfile hp
    simp only [runAnalyze, analyzeImageDev, hfile, hp]
    simp only [setField, getField]
    exact getMem_setMem_self ms "exif" _
  · intro req file e db hfile hq
    simp only [runAnalyze, analyzeImageDev, hfile]
    constructor
    · simp [analyzeImageDevCatch, hq]
    · decide

/-- Witness for C9 (amended) at concrete inputs. -/
theorem c9_witness :
    ((runAnalyze .imageDev exReqText (.ok (some "\x7b\x7d")) exDb).1 =
        ⟨400, errBody "Image is required"⟩) ∧
      getField (runAnalyze .imageDev exReqImage (.ok (some "\x7b\x7d")) exDb).1.body
          "exif" = some (exReqImage.exifParsed.getD (.obj .nil)) ∧
      ((runAnalyze .imageDev exReqImage (.err ex429) exDb).1 =
          ⟨200, mockImageResultDev⟩ ∧
        getField mockImageResultDev "exif" = none) :=
  ⟨c9_image_exif.1 exReqText (.ok (some "\x7b\x7d")) exDb (by decide),
   c9_image_exif.2.1 exReqImage ⟨"photo.jpg", "image/jpeg"⟩ (some "\x7b\x7d") .nil exDb
     (by decide) (by decide),
   c9_image_exif.2.2 exReqImage ⟨"photo.jpg", "image/jpeg"⟩ ex429 exDb
     (by decide) (by decide)⟩

theorem natCharsAux_zero (fuel : Nat) : natCharsAux fuel 0 [] = [] := by
  cases fuel <;> simp [natCharsAux]

theorem natCharsAux_append (fuel : Nat) : ∀ (n : Nat) (acc : List Char),
    natCharsAux fuel n acc = natCharsAux fuel n [] ++ acc := by
  induction fuel with
  | zero => intro n acc; simp [natCharsAux]
  | succ f ih =>
    intro n acc
    by_cases hn : n = 0
    · simp [natCharsAux, hn]
    · rw [natCharsAux, if_neg hn, natCharsAux, if_neg hn]
      rw [ih (n / 10) (Char.ofNat (48 + n % 10) :: acc),
        ih (n / 10) [Char.ofNat (48 + n % 10)]]
      simp

theorem digitChar_isDig (k : Nat) (hk : k < 10) :
    isDig (Char.ofNat (48 + k)) = true := by
  interval_cases k <;> decide

theorem digitChar_toNat (k : Nat) (hk : k < 10) :
    (Char.ofNat (48 + k)).toNat = 48 + k := by
  interval_cases k <;> decide

theorem natCharsAux_digits (fuel : Nat) : ∀ (n : Nat), ∀ c ∈ natCharsAux fuel n [],
    isDig c = true := by
  induction fuel with
  | zero => intro n c hc; simp [natCharsAux] at hc
  | succ f ih =>
    intro n c hc
    by_cases hn : n = 0
    · simp [natCharsAux, hn] at hc
    · rw [natCharsAux, if_neg hn, natCharsAux_append] at hc
      rcases List.mem_append.1 hc with h | h
      · exact ih _ c h
      · simp at h
        subst h
        exact digitChar_isDig _ (Nat.mod_lt _ (by omega))

theorem natChars_digits (n : Nat) : ∀ c ∈ natChars n, isDig c = true := by
  intro c hc
  unfold natChars at hc
  by_cases hn : n = 0
  · simp [hn] at hc
    subst hc
    decide
  · rw [if_neg hn] at hc
    exact natCharsAux_digits n n c hc

theorem natChars_ne (n : Nat) : natChars n ≠ [] := by
  unfold natChars
  by_cases hn : n = 0
  · simp [hn]
  · rw [if_neg hn]
    obtain ⟨f, hf⟩ : ∃ f, n = f + 1 := ⟨n - 1, by omega⟩
    rw [hf]
    rw [natCharsAux, if_neg (by omega : ¬ f + 1 = 0), natCharsAux_append]
    simp

theorem foldl_natCharsAux (n : Nat) : ∀ fuel, n ≤ fuel → ∀ a : Nat,
    List.foldl (fun a c => 10 * a + (c.toNat - 48)) a (natCharsAux fuel n []) =
      if n = 0 then a else a * 10 ^ (natCharsAux fuel n []).length + n := by
  induction n using Nat.strong_induction_on with
  | _ n IH =>
    intro fuel hf a
    by_cases hn : n = 0
    · simp [hn, natCharsAux_zero]
    · rw [if_neg hn]
      obtain ⟨f, rfl⟩ : ∃ f, fuel = f + 1 := ⟨fuel - 1, by omega⟩
      rw [natCharsAux, if_neg hn, natCharsAux_append, List.foldl_append]
      have h10 : n / 10 < n := Nat.div_lt_self (by omega) (by omega)
      rw [IH (n / 10) h10 f (by omega) a]
      by_cases h0 : n / 10 = 0
      · simp only [h0, if_pos, natCharsAux_zero, List.foldl, List.length_append,
          List.length_nil, List.length_cons]
        simp [List.foldl]
        rw [digitChar_toNat _ (Nat.mod_lt _ (by omega))]
        have hsm : n % 10 = n := by omega
        omega
      · rw [if_neg h0]
        simp only [List.foldl]
        rw [digitChar_toNat _ (Nat.mod_lt _ (by omega))]
        rw [List.length_append, List.length_cons, List.length_nil]
        have hdm : 10 * (n / 10) + n % 10 = n := by omega
        calc 10 * (a * 10 ^ (natCharsAux f (n / 10) []).length + n / 10) + (48 + n % 10 - 48)
            = a * (10 ^ (natCharsAux f (n / 10) []).length * 10) + (10 * (n / 10) + n % 10) := by
              ring_nf
              omega
          _ = a * 10 ^ ((natCharsAux f (n / 10) []).length + (0 + 1)) + n := by
              rw [hdm, pow_succ]

theorem digitsToNat_natChars (n : Nat) : digitsToNat (natChars n) = n := by
  unfold digitsToNat natChars
  by_cases hn : n = 0
  · simp [hn, List.foldl]
  · rw [if_neg hn, foldl_natCharsAux n n le_rfl 0, if_neg hn]
    simp

theorem takeWhile_append_all (p : Char → Bool) (l r : List Char)
    (hl : ∀ c ∈ l, p c = true) :
    (l ++ r).takeWhile p = l ++ r.takeWhile p := by
  induction l with
  | nil => simp
  | cons c cs ih =>
    have hc : p c = true := hl c (by simp)
    simp only [List.cons_append, List.takeWhile_cons, hc]
    rw [ih (fun x hx => hl x (by simp [hx]))]
    simp

theorem dropWhile_append_all (p : Char → Bool) (l r : List Char)
    (hl : ∀ c ∈ l, p c = true) :
    (l ++ r).dropWhile p = r.dropWhile p := by
  induction l with
  | nil => simp
  | cons c cs ih =>
    have hc : p c = true := hl c (by simp)
    simp only [List.cons_append, List.dropWhile_cons, hc]
    simp only [if_true]
    exact ih (fun x hx => hl x (by simp [hx]))

theorem takeWhile_notDigitAt (rest : List Char) (hr : notDigitAt rest) :
    rest.takeWhile isDig = [] := by
  cases rest with
  | nil => simp
  | cons c cs =>
    simp only [notDigitAt] at hr
    simp [List.takeWhile_cons, hr]

theorem dropWhile_notDigitAt (rest : List Char) (hr : notDigitAt rest) :
    rest.dropWhile isDig = rest := by
  cases rest with
  | nil => simp
  | cons c cs =>
    simp only [notDigitAt] at hr
    simp [List.dropWhile_cons, hr]

theorem rtNum (n : Int) (rest : List Char) (hr : notDigitAt rest) :
    parseNum (intChars n ++ rest) = some (.num n, rest) := by
  have hds : ∀ m : Nat, (natChars m ++ rest).takeWhile isDig = natChars m := by
    intro m
    rw [takeWhile_append_all _ _ _ (natChars_digits m), takeWhile_notDigitAt rest hr]
    simp
  have hdr : ∀ m : Nat, (natChars m ++ rest).dropWhile isDig = rest := by
    intro m
    rw [dropWhile_append_all _ _ _ (natChars_digits m), dropWhile_notDigitAt rest hr]
  by_cases hn : n < 0
  · rw [intChars, if_pos hn]
    rw [List.cons_append]
    simp only [parseNum]
    simp only [if_true]
    rw [hds, hdr]
    rw [if_neg (natChars_ne n.natAbs)]
    rw [digitsToNat_natChars]
    have hna : (-(n.natAbs : Int)) = n := by omega
    rw [hna]
  · rw [intChars, if_neg hn]
    cases hnc : natChars n.toNat with
    | nil => exact absurd hnc (natChars_ne _)
    | cons c t =>
      have hcd : isDig c = true := natChars_digits _ c (by rw [hnc]; simp)
      have hcne : ¬(c = '-') := by
        intro h
        subst h
        exact absurd hcd (by decide)
      have h1 : ((c :: t) ++ rest).takeWhile isDig = c :: t := by
        rw [← hnc, hds]
      have h2 : ((c :: t) ++ rest).dropWhile isDig = rest := by
        rw [← hnc, hdr]
      rw [List.cons_append] at h1 h2
      rw [List.cons_append]
      simp only [parseNum]
      rw [if_neg hcne]
      rw [h1, h2]
      rw [if_neg (by simp)]
      have h3 : digitsToNat (c :: t) = n.toNat := by
        rw [← hnc, digitsToNat_natChars]
      rw [h3]
      have hna : ((n.toNat : Nat) : Int) = n := by omega
      rw [hna]

theorem rtStr (s : List Char) (rest : List Char) :
    parseStrBody (escChars s ++ rest) = some (s, rest) := by
  induction s with
  | nil =>
    simp only [escChars, List.cons_append, List.nil_append]
    unfold parseStrBody
    simp
  | cons c cs ih =>
    by_cases h1 : c = '"'
    · subst h1
      simp [escChars]
      unfold parseStrBody
      simp [unescape, ih]
    · by_cases h2 : c = '\\'
      · subst h2
        simp [escChars]
        unfold parseStrBody
        simp [unescape, ih]
      · simp only [escChars, if_neg h1, if_neg h2]
        simp only [List.cons_append]
        unfold parseStrBody
        simp [h1, h2, ih]

theorem isWs_toNat (c : Char) (h : isWs c = true) :
    c.toNat = 32 ∨ c.toNat = 9 ∨ c.toNat = 10 ∨ c.toNat = 11 ∨
      c.toNat = 12 ∨ c.toNat = 13 := by
  simp [isWs] at h
  rcases h with ((((h | h) | h) | h) | h) | h <;> subst h <;> decide

theorem isDig_toNat (c : Char) (h : isDig c = true) :
    48 ≤ c.toNat ∧ c.toNat ≤ 57 := by
  simp [isDig] at h
  exact h

theorem isDig_notWs (c : Char) (h : isDig c = true) : isWs c = false := by
  obtain ⟨h1, h2⟩ := isDig_toNat c h
  by_contra hw
  simp at hw
  rcases isWs_toNat c hw with h3 | h3 | h3 | h3 | h3 | h3 <;> omega

theorem isDig_ne_rsq (c : Char) (h : isDig c = true) : ¬(c = ']') := by
  intro he
  subst he
  exact absurd h (by decide)

theorem getLast?_cons_ne (a : Char) (l : List Char) (h : l ≠ []) :
    (a :: l).getLast? = l.getLast? := by
  cases l with
  | nil => exact absurd rfl h
  | cons b t => exact List.getLast?_cons_cons

theorem getLast?_append_ne (l r : List Char) (h : r ≠ []) :
    (l ++ r).getLast? = r.getLast? := by
  induction l with
  | nil => simp
  | cons a t ih =>
    rw [List.cons_append, getLast?_cons_ne, ih]
    intro he
    rcases List.append_eq_nil.1 he with ⟨-, h2⟩
    exact h h2

theorem getLast?_mem_of (l : List Char) (z : Char) (h : l.getLast? = some z) :
    z ∈ l := by
  have hz : z ∈ l.getLast? := Option.mem_def.mpr h
  obtain ⟨hne, heq⟩ := List.mem_getLast?_eq_getLast hz
  rw [heq]
  exact List.getLast_mem hne

theorem escChars_ne (l : List Char) : escChars l ≠ [] := by
  cases l with
  | nil => simp [escChars]
  | cons c cs =>
    simp only [escChars]
    split
    · simp
    · split <;> simp

theorem escChars_last (l : List Char) : (escChars l).getLast? = some '"' := by
  induction l with
  | nil => decide
  | cons c cs ih =>
    simp only [escChars]
    split
    · rw [getLast?_cons_ne _ _ (by simp [escChars_ne cs]),
        getLast?_cons_ne _ _ (escChars_ne cs), ih]
    · split
      · rw [getLast?_cons_ne _ _ (by simp [escChars_ne cs]),
          getLast?_cons_ne _ _ (escChars_ne cs), ih]
      · rw [getLast?_cons_ne _ _ (escChars_ne cs), ih]

theorem natChars_head (n : Nat) :
    ∃ c t, natChars n = c :: t ∧ isDig c = true := by
  cases hnc : natChars n with
  | nil => exact absurd hnc (natChars_ne n)
  | cons c t =>
    exact ⟨c, t, rfl, natChars_digits n c (by rw [hnc]; simp)⟩

theorem natChars_last (n : Nat) :
    ∃ z, (natChars n).getLast? = some z ∧ isDig z = true := by
  cases hl : (natChars n).getLast? with
  | none =>
    rw [List.getLast?_eq_none_iff] at hl
    exact absurd hl (natChars_ne n)
  | some z =>
    exact ⟨z, rfl, natChars_digits n z (getLast?_mem_of _ _ hl)⟩

theorem serializeItems_ne (xs : JsonList) : serializeItems xs ≠ [] := by
  cases xs with
  | nil => simp [serializeItems]
  | cons x tl =>
    cases tl <;> simp [serializeItems]

theorem serializeMems_ne (ms : Members) : serializeMems ms ≠ [] := by
  cases ms with
  | nil => simp [serializeMems]
  | cons k v tl =>
    cases tl <;> simp [serializeMems]

theorem serializeItems_last (xs : JsonList) :
    (serializeItems xs).getLast? = some ']' := by
  cases xs with
  | nil => decide
  | cons x tl =>
    cases tl with
    | nil =>
      rw [serializeItems, getLast?_append_ne _ _ (by simp)]
      decide
    | cons y tl2 =>
      rw [serializeItems, getLast?_append_ne _ _ (by simp),
        getLast?_cons_ne _ _ (serializeItems_ne (.cons y tl2))]
      exact serializeItems_last (.cons y tl2)

theorem serializeMems_last (ms : Members) :
    (serializeMems ms).getLast? = some rbr := by
  cases ms with
  | nil => decide
  | cons k v tl =>
    cases tl with
    | nil =>
      rw [serializeMems, getLast?_append_ne _ _ (by simp)]
      decide
    | cons k2 w tl2 =>
      rw [serializeMems, getLast?_append_ne _ _ (by simp),
        getLast?_cons_ne _ _ (serializeMems_ne (.cons k2 w tl2))]
      exact serializeMems_last (.cons k2 w tl2)

theorem serialize_head (v : Json) :
    ∃ c t, serialize v = c :: t ∧ isWs c = false ∧ ¬(c = ']') := by
  cases v with
  | null => exact ⟨'n', _, rfl, by decide, by decide⟩
  | bool b => cases b
              · exact ⟨'f', _, rfl, by decide, by decide⟩
              · exact ⟨'t', _, rfl, by decide, by decide⟩
  | num n =>
    rw [serialize, intChars]
    by_cases hn : n < 0
    · rw [if_pos hn]
      exact ⟨'-', _, rfl, by decide, by decide⟩
    · rw [if_neg hn]
      obtain ⟨c, t, hct, hd⟩ := natChars_head n.toNat
      exact ⟨c, t, hct, isDig_notWs c hd, isDig_ne_rsq c hd⟩
  | str s => exact ⟨'"', _, rfl, by decide, by decide⟩
  | nan => exact ⟨'n', _, rfl, by decide, by decide⟩
  | arr xs => exact ⟨'[', _, rfl, by decide, by decide⟩
  | obj ms => exact ⟨lbr, _, rfl, by decide, by decide⟩

theorem serialize_last (v : Json) :
    ∃ z, (serialize v).getLast? = some z ∧ isWs z = false := by
  cases v with
  | null => exact ⟨'l', by decide, by decide⟩
  | bool b => cases b
              · exact ⟨'e', by decide, by decide⟩
              · exact ⟨'e', by decide, by decide⟩
  | num n =>
    rw [serialize, intChars]
    by_cases hn : n < 0
    · rw [if_pos hn]
      obtain ⟨z, hz, hd⟩ := natChars_last n.natAbs
      refine ⟨z, ?_, isDig_notWs z hd⟩
      rw [getLast?_cons_ne _ _ (natChars_ne _), hz]
    · rw [if_neg hn]
      obtain ⟨z, hz, hd⟩ := natChars_last n.toNat
      exact ⟨z, hz, isDig_notWs z hd⟩
  | str s =>
    refine ⟨'"', ?_, by decide⟩
    rw [serialize, getLast?_cons_ne _ _ (escChars_ne _)]
    exact escChars_last s.data
  | nan => exact ⟨'l', by decide, by decide⟩
  | arr xs =>
    refine ⟨']', ?_, by decide⟩
    rw [serialize, getLast?_cons_ne _ _ (serializeItems_ne _)]
    exact serializeItems_last xs
  | obj ms =>
    refine ⟨rbr, ?_, by decide⟩
    rw [serialize, getLast?_cons_ne _ _ (serializeMems_ne _)]
    exact serializeMems_last ms

theorem serialize_ne (v : Json) : serialize v ≠ [] := by
  obtain ⟨c, t, hct, -⟩ := serialize_head v
  rw [hct]
  simp

theorem stringMk_data (s : String) : String.mk s.data = s := rfl

theorem dropWs_cons_of (c : Char) (l : List Char) (h : isWs c = false) :
    dropWs (c :: l) = c :: l := by
  simp [dropWs, List.dropWhile, h]

theorem numGuard_cons (v : Json) (c : Char) (rest : List Char)
    (h : isDig c = false) : numGuard v (c :: rest) := by
  cases v <;> simp [numGuard, notDigitAt, h]

theorem isDig_ne_starts (c : Char) (h : isDig c = true) :
    ¬(c = lbr) ∧ ¬(c = '[') ∧ ¬(c = '"') ∧ ¬(c = 'n') ∧ ¬(c = 't') ∧ ¬(c = 'f') := by
  refine ⟨?_, ?_, ?_, ?_, ?_, ?_⟩ <;> (intro he; subst he; exact absurd h (by decide))

theorem fuelV_pos (v : Json) : 1 ≤ fuelV v := by
  cases v <;> simp [fuelV]

theorem fuelL_pos (xs : JsonList) : 1 ≤ fuelL xs := by
  cases xs <;> simp [fuelL]

theorem fuelM_pos (ms : Members) : 1 ≤ fuelM ms := by
  cases ms <;> simp [fuelM]

mutual

theorem rtV (v : Json) : nanFree v = true → ∀ (fuel : Nat) (rest : List Char),
    fuelV v ≤ fuel → numGuard v rest →
    parseValue fuel (serialize v ++ rest) = some (v, rest) := by
  intro hnan fuel rest hf hg
  obtain ⟨f, rfl⟩ : ∃ f, fuel = f + 1 := ⟨fuel - 1, by have := fuelV_pos v; omega⟩
  cases v with
  | null => simp [serialize, parseValue, dropWs, isWs, lbr]
  | nan => simp [nanFree] at hnan
  | bool b => cases b <;> simp [serialize, parseValue, dropWs, isWs, lbr]
  | str s => simp [serialize, parseValue, dropWs, isWs, lbr, rtStr]
  | num n =>
    have hg' : notDigitAt rest := by simpa [numGuard] using hg
    rw [serialize]
    by_cases hn : n < 0
    · have hback : '-' :: (natChars n.natAbs ++ rest) = intChars n ++ rest := by
        rw [intChars, if_pos hn, List.cons_append]
      rw [intChars, if_pos hn, List.cons_append]
      simp only [parseValue]
      rw [dropWs_cons_of _ _ (by decide)]
      simp only [show ¬(('-' : Char) = lbr) from by decide,
        show ¬(('-' : Char) = '[') from by decide,
        show ¬(('-' : Char) = '"') from by decide,
        show ¬(('-' : Char) = 'n') from by decide,
        show ¬(('-' : Char) = 't') from by decide,
        show ¬(('-' : Char) = 'f') from by decide,
        show (('-' : Char) = '-' || isDig '-') = true from by decide,
        if_false, if_true, ite_false, ite_true]
      rw [hback]
      exact rtNum n rest hg'
    · obtain ⟨c, t, hct, hd⟩ := natChars_head n.toNat
      have hback : c :: (t ++ rest) = intChars n ++ rest := by
        rw [intChars, if_neg hn, hct, List.cons_append]
      obtain ⟨e1, e2, e3, e4, e5, e6⟩ := isDig_ne_starts c hd
      rw [intChars, if_neg hn, hct, List.cons_append]
      simp only [parseValue]
      rw [dropWs_cons_of _ _ (isDig_notWs c hd)]
      simp only [e1, e2, e3, e4, e5, e6, hd, Bool.or_true,
        if_false, if_true, ite_false, ite_true]
      rw [hback]
      exact rtNum n rest hg'
  | arr xs =>
    cases xs with
    | nil => simp [serialize, serializeItems, parseValue, dropWs, isWs, lbr]
    | cons x tl =>
      have hfl : fuelL (JsonList.cons x tl) ≤ f := by
        simp [fuelV] at hf
        omega
      have hnf : nanFree x = true ∧ nanFreeL tl = true := by
        simpa [nanFree, nanFreeL] using hnan
      obtain ⟨c0, R, hR, hws, hrsq⟩ :
          ∃ c0 R, serializeItems (JsonList.cons x tl) ++ rest = c0 :: R ∧
            isWs c0 = false ∧ ¬(c0 = ']') := by
        obtain ⟨c0, t0, hx, hws, hrsq⟩ := serialize_head x
        cases tl with
        | nil =>
          exact ⟨c0, t0 ++ (']' :: rest), by rw [serializeItems, hx]; simp, hws, hrsq⟩
        | cons y tl2 =>
          exact ⟨c0, t0 ++ (',' :: (serializeItems (JsonList.cons y tl2) ++ rest)),
            by rw [serializeItems, hx]; simp, hws, hrsq⟩
      have hrec : parseElems f (c0 :: R) = some (JsonList.cons x tl, rest) := by
        rw [← hR]
        exact rtL x tl hnf.1 hnf.2 f rest hfl
      rw [serialize, List.cons_append]
      simp only [parseValue]
      rw [dropWs_cons_of _ _ (by decide)]
      simp [lbr, hR, dropWs_cons_of, hws, hrsq, hrec]
  | obj ms =>
    cases ms with
    | nil => simp [serialize, serializeMems, parseValue, dropWs, isWs, lbr, rbr]
    | cons k w tl =>
      have hfm : fuelM (Members.cons k w tl) ≤ f := by
        simp [fuelV] at hf
        omega
      have hnf : nanFree w = true ∧ nanFreeM tl = true := by
        simpa [nanFree, nanFreeM] using hnan
      obtain ⟨R, hR⟩ :
          ∃ R, serializeMems (Members.cons k w tl) ++ rest = '"' :: R := by
        cases tl with
        | nil =>
          exact ⟨escChars k.data ++ (':' :: (serialize w ++ (rbr :: rest))),
            by rw [serializeMems]; simp⟩
        | cons k2 w2 tl2 =>
          exact ⟨escChars k.data ++
              (':' :: (serialize w ++ (',' :: (serializeMems (Members.cons k2 w2 tl2) ++ rest)))),
            by rw [serializeMems]; simp⟩
      have hrec : parseMems f ('"' :: R) = some (Members.cons k w tl, rest) := by
        rw [← hR]
        exact rtM k w tl hnf.1 hnf.2 f rest hfm
      have hqw : isWs '"' = false := by decide
      rw [serialize, List.cons_append]
      simp only [parseValue]
      rw [dropWs_cons_of _ _ (by decide)]
      simp [lbr, rbr, hR, dropWs_cons_of, hqw, hrec]
  termination_by sizeOf v

theorem rtL (x : Json) (tl : JsonList) :
    nanFree x = true → nanFreeL tl = true → ∀ (fuel : Nat) (rest : List Char),
    fuelL (JsonList.cons x tl) ≤ fuel →
    parseElems fuel (serializeItems (JsonList.cons x tl) ++ rest) =
      some (JsonList.cons x tl, rest) := by
  intro hnx hntl fuel rest hf
  obtain ⟨f, rfl⟩ : ∃ f, fuel = f + 1 := ⟨fuel - 1, by simp [fuelL] at hf; omega⟩
  have hfx : fuelV x ≤ f := by simp [fuelL] at hf; omega
  cases tl with
  | nil =>
    rw [serializeItems, List.append_assoc, List.singleton_append]
    simp only [parseElems]
    rw [rtV x hnx f (']' :: rest) hfx (numGuard_cons _ _ _ (by decide))]
    simp [dropWs, isWs]
  | cons y tl2 =>
    have hfl2 : fuelL (JsonList.cons y tl2) ≤ f := by
      simp [fuelL] at hf ⊢
      omega
    have hnl : nanFree y = true ∧ nanFreeL tl2 = true := by
      simpa [nanFreeL] using hntl
    rw [serializeItems, List.append_assoc, List.cons_append]
    simp only [parseElems]
    rw [rtV x hnx f (',' :: (serializeItems (JsonList.cons y tl2) ++ rest)) hfx
      (numGuard_cons _ _ _ (by decide))]
    have hrec : parseElems f (serializeItems (JsonList.cons y tl2) ++ rest) =
        some (JsonList.cons y tl2, rest) :=
      rtL y tl2 hnl.1 hnl.2 f rest hfl2
    simp [dropWs, isWs, hrec]
  termination_by sizeOf (JsonList.cons x tl)

theorem rtM (k : String) (w : Json) (tl : Members) :
    nanFree w = true → nanFreeM tl = true → ∀ (fuel : Nat) (rest : List Char),
    fuelM (Members.cons k w tl) ≤ fuel →
    parseMems fuel (serializeMems (Members.cons k w tl) ++ rest) =
      some (Members.cons k w tl, rest) := by
  intro hnw hntl fuel rest hf
  obtain ⟨f, rfl⟩ : ∃ f, fuel = f + 1 := ⟨fuel - 1, by simp [fuelM] at hf; omega⟩
  have hfw : fuelV w ≤ f := by simp [fuelM] at hf; omega
  cases tl with
  | nil =>
    rw [serializeMems]
    simp only [List.append_assoc, List.cons_append, List.singleton_append, List.nil_append]
    simp only [parseMems]
    rw [dropWs_cons_of _ _ (by decide)]
    simp only [show (('"' : Char) = '"') from rfl, ite_true, if_true]
    rw [rtStr k.data (':' :: (serialize w ++ rbr :: rest))]
    simp only [Option.some_bind]
    rw [dropWs_cons_of _ _ (by decide)]
    simp only [show ((':' : Char) = ':') from rfl, ite_true, if_true]
    rw [rtV w hnw f (rbr :: rest) hfw (numGuard_cons _ _ _ (by decide))]
    simp [dropWs, isWs, rbr, stringMk_data]
  | cons k2 w2 tl2 =>
    have hfm2 : fuelM (Members.cons k2 w2 tl2) ≤ f := by
      simp [fuelM] at hf ⊢
      omega
    have hnm : nanFree w2 = true ∧ nanFreeM tl2 = true := by
      simpa [nanFreeM] using hntl
    rw [serializeMems]
    simp only [List.append_assoc, List.cons_append, List.singleton_append, List.nil_append]
    simp only [parseMems]
    rw [dropWs_cons_of _ _ (by decide)]
    simp only [show (('"' : Char) = '"') from rfl, ite_true, if_true]
    rw [rtStr k.data (':' :: (serialize w ++ ',' :: (serializeMems (Members.cons k2 w2 tl2) ++ rest)))]
    simp only [Option.some_bind]
    rw [dropWs_cons_of _ _ (by decide)]
    simp only [show ((':' : Char) = ':') from rfl, ite_true, if_true]
    rw [rtV w hnw f (',' :: (serializeMems (Members.cons k2 w2 tl2) ++ rest)) hfw
      (numGuard_cons _ _ _ (by decide))]
    have hrec : parseMems f (serializeMems (Members.cons k2 w2 tl2) ++ rest) =
        some (Members.cons k2 w2 tl2, rest) :=
      rtM k2 w2 tl2 hnm.1 hnm.2 f rest hfm2
    simp [dropWs, isWs, hrec, stringMk_data]
  termination_by sizeOf (Members.cons k w tl)

end

mutual

theorem fuelV_le (v : Json) : fuelV v ≤ (serialize v).length + 1 := by
  cases v with
  | arr xs =>
    have h := fuelL_le xs
    simp only [fuelV, serialize, List.length_cons]
    omega
  | obj ms =>
    have h := fuelM_le ms
    simp only [fuelV, serialize, List.length_cons]
    omega
  | null => simp [fuelV]
  | nan => simp [fuelV]
  | bool b => simp [fuelV]
  | num n => simp [fuelV]
  | str s => simp [fuelV]
  termination_by sizeOf v

theorem fuelL_le (xs : JsonList) : fuelL xs ≤ (serializeItems xs).length + 1 := by
  cases xs with
  | nil => simp [fuelL, serializeItems]
  | cons x tl =>
    have hx := fuelV_le x
    cases tl with
    | nil =>
      simp only [fuelL, serializeItems, List.length_append, List.length_cons,
        List.length_nil]
      omega
    | cons y tl2 =>
      have ht := fuelL_le (JsonList.cons y tl2)
      simp only [fuelL, serializeItems, List.length_append, List.length_cons,
        List.length_nil] at ht ⊢
      omega
  termination_by sizeOf xs

theorem fuelM_le (ms : Members) : fuelM ms ≤ (serializeMems ms).length + 1 := by
  cases ms with
  | nil => simp [fuelM, serializeMems]
  | cons k w tl =>
    have hw := fuelV_le w
    cases tl with
    | nil =>
      simp only [fuelM, serializeMems, List.length_append, List.length_cons,
        List.length_nil]
      omega
    | cons k2 w2 tl2 =>
      have ht := fuelM_le (Members.cons k2 w2 tl2)
      simp only [fuelM, serializeMems, List.length_append, List.length_cons,
        List.length_nil] at ht ⊢
      omega
  termination_by sizeOf ms

end

theorem numGuard_nil (v : Json) : numGuard v [] := by
  cases v <;> simp [numGuard, notDigitAt]

theorem jsonParse_serialize (v : Json) (h : nanFree v = true) :
    jsonParse (serialize v) = some v := by
  unfold jsonParse
  have h1 : parseValue ((serialize v).length + 1) (serialize v) = some (v, []) := by
    have h2 := rtV v h ((serialize v).length + 1) [] (fuelV_le v) (numGuard_nil v)
    simpa using h2
  rw [h1]
  simp [dropWs]

theorem isTriple_append_tail (c : Char) (s2 : List Char)
    (h : isTriple (c :: s2) = false) :
    isTriple (c :: (s2 ++ ('\n' :: btk :: btk :: btk :: []))) = false := by
  match s2 with
  | [] => simp [isTriple, show ¬(('\n' : Char) = btk) from by decide]
  | [d] => simp [isTriple, show ¬(('\n' : Char) = btk) from by decide]
  | d :: e :: s3 =>
    simp only [isTriple] at h ⊢
    simpa using h

theorem hasFenceJson_tail (s : List Char) (hs : hasTriple s = false) :
    hasFenceJson (s ++ ('\n' :: btk :: btk :: btk :: [])) = false := by
  induction s with
  | nil => decide
  | cons c s2 ih =>
    simp only [hasTriple, Bool.or_eq_false_iff] at hs
    obtain ⟨h1, h2⟩ := hs
    simp only [List.cons_append, List.append_eq, hasFenceJson, Bool.or_eq_false_iff]
    constructor
    · rw [isFenceJson, isTriple_append_tail c s2 h1]
      simp
    · exact ih h2

theorem stripJsonFencesF_id (fuel : Nat) : ∀ l, l.length ≤ fuel →
    hasFenceJson l = false → stripJsonFencesF fuel l = l := by
  induction fuel with
  | zero => intro l _ _; rfl
  | succ f ih =>
    intro l hlen hfa
    cases l with
    | nil => rfl
    | cons c cs =>
      simp only [hasFenceJson, Bool.or_eq_false_iff] at hfa
      simp only [stripJsonFencesF]
      rw [if_neg (by simp [hfa.1])]
      rw [ih cs (by simp at hlen; omega) hfa.2]

theorem stripFencesF_tail : ∀ (s : List Char) (fuel : Nat), hasTriple s = false →
    s.length + 4 ≤ fuel →
    stripFencesF fuel (s ++ ('\n' :: btk :: btk :: btk :: [])) = s ++ ['\n'] := by
  intro s
  induction s with
  | nil =>
    intro fuel _ hf
    obtain ⟨f, rfl⟩ : ∃ f, fuel = f + 1 + 1 + 1 + 1 := ⟨fuel - 4, by omega⟩
    simp only [List.nil_append]
    simp [stripFencesF, dropWs, isTriple, isWs, btk]
  | cons c s2 ih =>
    intro fuel hs hf
    simp only [hasTriple, Bool.or_eq_false_iff] at hs
    obtain ⟨h1, h2⟩ := hs
    obtain ⟨f, rfl⟩ : ∃ f, fuel = f + 1 := ⟨fuel - 1, by omega⟩
    simp only [List.cons_append, List.append_eq, stripFencesF]
    rw [if_neg (by simp [isTriple_append_tail c s2 h1])]
    rw [ih f h2 (by simp at hf; omega)]

theorem trimChars_tail (c0 : Char) (t0 : List Char) (hws : isWs c0 = false)
    (z : Char) (hl : (c0 :: t0).getLast? = some z) (hz : isWs z = false) :
    trimChars ((c0 :: t0) ++ ['\n']) = c0 :: t0 := by
  unfold trimChars
  rw [List.cons_append, List.dropWhile_cons]
  simp only [hws, Bool.false_eq_true, if_false, ite_false]
  have hrev : (c0 :: (t0 ++ ['\n'])).reverse = '\n' :: (c0 :: t0).reverse := by
    rw [← List.cons_append, List.reverse_append]
    rfl
  rw [hrev, List.dropWhile_cons]
  simp only [show isWs '\n' = true from by decide, if_true, ite_true]
  have hh : (c0 :: t0).reverse.head? = some z := by
    rw [List.head?_reverse]
    exact hl
  cases hr : (c0 :: t0).reverse with
  | nil => simp [hr] at hh
  | cons a r2 =>
    rw [hr] at hh
    simp only [List.head?_cons, Option.some.injEq] at hh
    subst hh
    rw [List.dropWhile_cons]
    simp only [hz, Bool.false_eq_true, if_false, ite_false]
    rw [← hr, List.reverse_reverse]

theorem isFenceJson_head (X : List Char) :
    isFenceJson (btk :: btk :: btk :: 'j' :: 's' :: 'o' :: 'n' :: X) = true := by
  simp [isFenceJson, isTriple, matchesJsonAfter, List.drop]

theorem data_fence_open :
    ("```json\n" : String).data = btk :: btk :: btk :: 'j' :: 's' :: 'o' :: 'n' :: '\n' :: [] := by
  decide

theorem data_fence_close :
    ("\n```" : String).data = '\n' :: btk :: btk :: btk :: [] := by
  decide

theorem stripAll_wrap (s : List Char) (hs : hasTriple s = false)
    (c0 : Char) (t0 : List Char) (hhead : s = c0 :: t0) (hws : isWs c0 = false)
    (z : Char) (hlast : s.getLast? = some z) (hz : isWs z = false) :
    stripAll (wrapFences (String.mk s)) = s := by
  have hd : (wrapFences (String.mk s)).data =
      btk :: btk :: btk :: 'j' :: 's' :: 'o' :: 'n' :: '\n' ::
        (s ++ ('\n' :: btk :: btk :: btk :: [])) := by
    show (("```json\n" ++ String.mk s) ++ "\n```").data = _
    rw [String.data_append, String.data_append, data_fence_open, data_fence_close]
    simp
  have hstep1 : stripJsonFences (wrapFences (String.mk s)).data =
      s ++ ('\n' :: btk :: btk :: btk :: []) := by
    rw [stripJsonFences, hd]
    have hlen : (btk :: btk :: btk :: 'j' :: 's' :: 'o' :: 'n' :: '\n' ::
        (s ++ ('\n' :: btk :: btk :: btk :: []))).length = (s.length + 11) + 1 := by
      simp
    rw [hlen]
    simp only [stripJsonFencesF]
    rw [if_pos (isFenceJson_head _)]
    have hdrop : (btk :: btk :: btk :: 'j' :: 's' :: 'o' :: 'n' :: '\n' ::
        (s ++ ('\n' :: btk :: btk :: btk :: []))).drop 7 =
        '\n' :: (s ++ ('\n' :: btk :: btk :: btk :: [])) := by
      simp [List.drop]
    rw [hdrop]
    have hdws : dropWs ('\n' :: (s ++ ('\n' :: btk :: btk :: btk :: []))) =
        s ++ ('\n' :: btk :: btk :: btk :: []) := by
      rw [dropWs, List.dropWhile_cons]
      simp only [show isWs '\n' = true from by decide, if_true, ite_true]
      rw [hhead, List.cons_append, List.dropWhile_cons]
      simp [hws]
    rw [hdws]
    exact stripJsonFencesF_id (s.length + 11) _ (by simp)
      (hasFenceJson_tail s hs)
  have hstep2 : stripFences (s ++ ('\n' :: btk :: btk :: btk :: [])) = s ++ ['\n'] := by
    rw [stripFences]
    exact stripFencesF_tail s _ hs (by simp)
  show trimChars (stripFences (stripJsonFences (wrapFences (String.mk s)).data)) = s
  rw [hstep1, hstep2, hhead]
  exact trimChars_tail c0 t0 hws z (hhead ▸ hlast) hz

theorem isTriple_shape (l : List Char) (h : isTriple l = true) :
    ∃ rest, l = btk :: btk :: btk :: rest := by
  match l with
  | a :: b :: c :: rest =>
    simp only [isTriple, Bool.and_eq_true, decide_eq_true_eq] at h
    obtain ⟨⟨h1, h2⟩, h3⟩ := h
    subst h1
    subst h2
    subst h3
    exact ⟨rest, rfl⟩
  | [] => simp [isTriple] at h
  | [a] => simp [isTriple] at h
  | [a, b] => simp [isTriple] at h

theorem contains_false_hasTriple (l : List Char)
    (h : containsChars (btk :: btk :: btk :: []) l = false) : hasTriple l = false := by
  induction l with
  | nil => rfl
  | cons c cs ih =>
    simp only [containsChars, Bool.or_eq_false_iff] at h
    simp only [hasTriple, Bool.or_eq_false_iff]
    refine ⟨?_, ih h.2⟩
    by_contra ht
    simp only [Bool.not_eq_false] at ht
    obtain ⟨rest, hrest⟩ := isTriple_shape _ ht
    rw [hrest] at h
    have hpref : List.isPrefixOf (btk :: btk :: btk :: []) (btk :: btk :: btk :: rest) = true := by
      rw [List.isPrefixOf_iff_prefix]
      exact ⟨rest, rfl⟩
    rw [hpref] at h
    simp at h

/-- C5 counterexample: for the object `\x7b"a":"```"\x7d` — whose string
value contains a triple backtick — fencing its serialization and passing
it through the normalizer yields `\x7b"a":""\x7d`, NOT the original
object: the global fence-strip deletes backticks inside string literals
too. -/
theorem c5_counterexample :
    parseJSON (wrapFences (serializeStr (Json.obj (.cons "a" (.str "```") .nil)))) =
      Json.obj (.cons "a" (.str "") .nil) ∧
    parseJSON (wrapFences (serializeStr (Json.obj (.cons "a" (.str "```") .nil)))) ≠
      Json.obj (.cons "a" (.str "```") .nil) := by
  decide

/-- C5 (amended): for every JSON value whose serialization contains no
triple-backtick substring (and which contains no `NaN`, a value JSON
cannot represent), wrapping the serialization in Markdown fences and
passing it to the normalizer recovers exactly the original value:
`parseJSON (wrap (stringify v)) = v`. -/
theorem c5_round_trip (v : Json) (hfence : containsB (serializeStr v) "```" = false)
    (hnan : nanFree v = true) :
    parseJSON (wrapFences (serializeStr v)) = v := by
  have hs : hasTriple (serialize v) = false := by
    apply contains_false_hasTriple
    have hd : ("```" : String).data = btk :: btk :: btk :: [] := by decide
    rw [← hd]
    exact hfence
  obtain ⟨c0, t0, hhead, hws, -⟩ := serialize_head v
  obtain ⟨z, hlast, hz⟩ := serialize_last v
  have hstrip : stripAll (wrapFences (serializeStr v)) = serialize v :=
    stripAll_wrap (serialize v) hs c0 t0 hhead hws z hlast hz
  unfold parseJSON
  rw [hstrip, jsonParse_serialize v hnan]

/-- Witness for C5 (amended) at a concrete fence-free object. -/
theorem c5_witness :
    containsB (serializeStr (Json.obj (.cons "aiProbability" (.num 30)
        (.cons "confidence" (.str "High") .nil)))) "```" = false ∧
      parseJSON (wrapFences (serializeStr (Json.obj (.cons "aiProbability" (.num 30)
        (.cons "confidence" (.str "High") .nil))))) =
        Json.obj (.cons "aiProbability" (.num 30) (.cons "confidence" (.str "High") .nil)) :=
  ⟨by decide,
    c5_round_trip (Json.obj (.cons "aiProbability" (.num 30)
      (.cons "confidence" (.str "High") .nil))) (by decide) (by decide)⟩


end Verify
